import Mathlib

/-!
Verification development for the Ants-vs-SomeBees combat engine
(src/projects/ants/ants.py), as a shallow embedding.

Places and insects live in arenas indexed by natural numbers; Python
attribute mutation becomes functional record update on a `GameState`.
Every operation that can raise in Python (assertion failures, attribute
access on `None`, `list.remove` on a missing element, unbounded loops on
a malformed graph) returns `Option`, with `none` modelling the raised
exception.  Uniform random choice (`random.choice` / `random_or_none`)
is modelled by an explicit chooser function from lists to `Option`;
theorems quantify over any chooser that picks a member of a nonempty
list, and concrete runs use `List.head?` (every choice point in those
runs offers exactly one candidate, where uniform choice is
deterministic).
-/

namespace Ants

/-- The closed enumeration of insect variants of ants.py (Bee plus the
implemented Ant subclasses the verified claims touch). -/
inductive InsectKind where
  | bee
  | harvester
  | thrower
  | fire
  | long
  | short
  | wall
  | ninja
  | scuba
  | hungry
  | bodyguard
  | queen
  | remover
deriving DecidableEq

/-- Insect.is_ant: False on Bee, True on every Ant subclass. -/
def InsectKind.isAnt : InsectKind → Bool
  | .bee => false
  | _ => true

/-- Class attribute watersafe: True on Bee, ScubaThrower and QueenAnt
(QueenAnt extends ScubaThrower); False otherwise. -/
def InsectKind.watersafe : InsectKind → Bool
  | .bee => true
  | .scuba => true
  | .queen => true
  | _ => false

/-- Class attribute container: True only on BodyguardAnt. -/
def InsectKind.container : InsectKind → Bool
  | .bodyguard => true
  | _ => false

/-- Class attribute block_path: False only on NinjaAnt. -/
def InsectKind.blockPath : InsectKind → Bool
  | .ninja => false
  | _ => true

/-- Class attribute damage of each variant (Ant default 0). -/
def InsectKind.damage0 : InsectKind → Int
  | .thrower => 1
  | .long => 1
  | .short => 1
  | .scuba => 1
  | .queen => 1
  | .fire => 3
  | .ninja => 1
  | _ => 0

/-- Class attribute food_cost of each variant. -/
def InsectKind.foodCost : InsectKind → Int
  | .harvester => 2
  | .thrower => 4
  | .fire => 4
  | .long => 3
  | .short => 3
  | .wall => 4
  | .ninja => 6
  | .scuba => 5
  | .hungry => 4
  | .bodyguard => 4
  | .queen => 6
  | _ => 0

/-- Armor given by each variant's constructor (Ant default 1, WallAnt 4,
BodyguardAnt 2, AntRemover 0; Bee armor 3 as built by the test assault
plans). -/
def InsectKind.initialArmor : InsectKind → Int
  | .wall => 4
  | .bodyguard => 2
  | .remover => 0
  | .bee => 3
  | _ => 1

/-- The min_range and max_range class attributes of the thrower variants
(ThrowerAnt 0..10, LongThrower 4..10, ShortThrower 0..2; QueenAnt and
ScubaThrower inherit ThrowerAnt's). -/
def InsectKind.throwerRange : InsectKind → Nat × Nat
  | .long => (4, 10)
  | .short => (0, 2)
  | _ => (0, 10)

/-- Mutable per-instance state of an insect: armor and place (Insect),
damage (doubled in place by QueenAnt), the BodyguardAnt ant slot, the
QueenAnt true_queen flag and double_dmg_ants list, and the HungryAnt
digesting counter.  Fields that a variant never uses stay at their
initial values. -/
structure Insect where
  kind : InsectKind
  armor : Int
  place : Option Nat
  damage : Int
  ant : Option Nat
  trueQueen : Bool
  digesting : Nat
  doubleDmgAnts : List Nat
deriving DecidableEq

/-- A node of the location graph: exit and entrance links, the bee list,
the single ant slot, and the subtype tags (Water overrides add_insect;
the Hive is recognised by name in Bee.action). -/
structure Place where
  exit : Option Nat
  entrance : Option Nat
  bees : List Nat
  ant : Option Nat
  isWater : Bool
  isHive : Bool
deriving DecidableEq

/-- colony.queen: initially the AntQueen place; each true-queen action
rewraps it as QueenPlace(colony.queen, self.place).  The second
component is the queen ant's place reference (an Option, as in the
source where self.place may be None). -/
inductive QueenRef where
  | place (pid : Nat)
  | qplace (colonyQueen : QueenRef) (antQueen : Option Nat)
deriving DecidableEq

/-- The whole mutable game state: the place arena, the registration
order of colony.places (an OrderedDict: the Hive first, then the tunnel
places in creation order; the AntQueen place is not registered), the
insect arena, food, time, the hive id, colony.queen, the class-level
QueenAnt.number_of_queens counter, and an observation counter recording
how many times Bee.action was invoked (instrumentation only: no
operation reads it). -/
structure GameState where
  places : List Place
  registered : List Nat
  insects : List Insect
  food : Int
  time : Nat
  hiveId : Nat
  queenRef : QueenRef
  numberOfQueens : Nat
  beeActionCount : Nat
deriving DecidableEq

def GameState.place? (st : GameState) (pid : Nat) : Option Place :=
  st.places[pid]?

def GameState.insect? (st : GameState) (iid : Nat) : Option Insect :=
  st.insects[iid]?

def GameState.setPlace (st : GameState) (pid : Nat) (p : Place) : GameState :=
  { st with places := st.places.set pid p }

def GameState.setInsect (st : GameState) (iid : Nat) (ins : Insect) : GameState :=
  { st with insects := st.insects.set iid ins }

/-- Bees of a place (empty for a dangling id). -/
def GameState.beesAt (st : GameState) (pid : Nat) : List Nat :=
  match st.place? pid with
  | some p => p.bees
  | none => []

/-- Ant.can_contain: self is a container, its slot is empty, and the
other insect is not itself a container. -/
def canContain (self other : Insect) : Bool :=
  self.kind.container && self.ant.isNone && !other.kind.container

/-- Place.add_insect.  For an ant: absorb it into a containing occupant
(case 1), or let an incoming container absorb the occupant (case 2), or
require the slot to be free (the assertion raising otherwise, modelled
as none).  For a bee: append to the bee list.  Finally set
insect.place. -/
def addInsect (st : GameState) (pid iid : Nat) : Option GameState := do
  let p ← st.place? pid
  let ins ← st.insect? iid
  if ins.kind.isAnt then
    match p.ant with
    | some a => do
      let aIns ← st.insect? a
      if canContain aIns ins then
        some ((st.setInsect a { aIns with ant := some iid }).setInsect iid
          { ins with place := some pid })
      else if canContain ins aIns then
        some ((st.setInsect iid { ins with ant := some a, place := some pid }).setPlace pid
          { p with ant := some iid })
      else none
    | none =>
      some ((st.setPlace pid { p with ant := some iid }).setInsect iid
        { ins with place := some pid })
  else
    some ((st.setPlace pid { p with bees := p.bees ++ [iid] }).setInsect iid
      { ins with place := some pid })

/-- Place.remove_insect.  A bee is removed from the bee list
(list.remove: first occurrence; ValueError if absent).  An ant must be
the visible occupant (assertion).  Removing a container promotes its
contained ant to the slot (dereferencing an empty slot raises); removing
a true QueenAnt returns before any change; otherwise the slot is
cleared.  Except on the true-queen path, insect.place is set to None. -/
def removeInsect (st : GameState) (pid iid : Nat) : Option GameState := do
  let p ← st.place? pid
  let ins ← st.insect? iid
  if ins.kind.isAnt then
    if p.ant = some iid then
      if ins.kind.container then do
        let c ← ins.ant
        let cIns ← st.insect? c
        some ((((st.setPlace pid { p with ant := some c }).setInsect c
          { cIns with place := some pid })).setInsect iid { ins with place := none })
      else if ins.kind = .queen && ins.trueQueen then
        some st
      else
        some ((st.setPlace pid { p with ant := none }).setInsect iid
          { ins with place := none })
    else none
  else
    if iid ∈ p.bees then
      some ((st.setPlace pid { p with bees := p.bees.erase iid }).setInsect iid
        { ins with place := none })
    else none

/-- Insect.reduce_armor: subtract the amount; at armor less or equal 0,
remove the insect from its place (attribute access on a None place
raising). -/
def insectReduceArmor (st : GameState) (iid : Nat) (amount : Int) : Option GameState := do
  let ins ← st.insect? iid
  let ins1 := { ins with armor := ins.armor - amount }
  let st1 := st.setInsect iid ins1
  if ins1.armor ≤ 0 then do
    let pid ← ins1.place
    removeInsect st1 pid iid
  else some st1

/-- FireAnt.reduce_armor: subtract the amount, snapshot the bee list of
the fire ant's place (dereferenced before the armor test), and on death
damage every snapshotted bee by the fire ant's damage before removing
itself. -/
def fireReduceArmor (st : GameState) (iid : Nat) (amount : Int) : Option GameState := do
  let ins ← st.insect? iid
  let ins1 := { ins with armor := ins.armor - amount }
  let st1 := st.setInsect iid ins1
  let pid ← ins1.place
  let p ← st1.place? pid
  if ins1.armor ≤ 0 then do
    let st2 ← p.bees.foldlM (fun s b => insectReduceArmor s b ins1.damage) st1
    let ins2 ← st2.insect? iid
    let pid2 ← ins2.place
    removeInsect st2 pid2 iid
  else some st1

/-- Dynamic dispatch of reduce_armor: FireAnt overrides it, every other
insect uses Insect.reduce_armor. -/
def reduceArmor (st : GameState) (iid : Nat) (amount : Int) : Option GameState := do
  let ins ← st.insect? iid
  if ins.kind = .fire then fireReduceArmor st iid amount
  else insectReduceArmor st iid amount

/-- Water.add_insect: delegate to Place.add_insect, then reduce a
non-watersafe insect's armor by its full armor. -/
def waterAddInsect (st : GameState) (pid iid : Nat) : Option GameState := do
  let st1 ← addInsect st pid iid
  let ins ← st1.insect? iid
  if ins.kind.watersafe then some st1
  else reduceArmor st1 iid ins.armor

/-- Dynamic dispatch of add_insect by place subtype (Water overrides
it). -/
def placeAddInsect (st : GameState) (pid iid : Nat) : Option GameState := do
  let p ← st.place? pid
  if p.isWater then waterAddInsect st pid iid else addInsect st pid iid

/-- A chooser is a faithful model of uniform random selection when it
returns a member of every nonempty list and none on the empty list
(random_or_none). -/
def ValidChooser (choose : List Nat → Option Nat) : Prop :=
  ∀ l : List Nat,
    match choose l with
    | some x => x ∈ l
    | none => l = []

/-- ThrowerAnt.nearest_bee loop body: walk entrance links from the
ant's own place at distance 0, stopping when the place is the Hive or
None; at each place draw a random bee and return it when one exists and
the distance lies within the inclusive range; otherwise advance.  The
fuel argument bounds the walk (the source while-loop terminates because
layouts are finite acyclic chains). -/
def nearestBeeGo (choose : List Nat → Option Nat) (st : GameState) (hive minR maxR : Nat) :
    Nat → Option Nat → Nat → Option Nat
  | _, none, _ => none
  | 0, some _, _ => none
  | fuel + 1, some pid, dist =>
    if pid = hive then none
    else
      match st.place? pid with
      | none => none
      | some p =>
        match choose p.bees with
        | some bee =>
          if minR ≤ dist ∧ dist ≤ maxR then some bee
          else nearestBeeGo choose st hive minR maxR fuel p.entrance (dist + 1)
        | none => nearestBeeGo choose st hive minR maxR fuel p.entrance (dist + 1)

/-- ThrowerAnt.nearest_bee from a given starting place reference. -/
def nearestBee (choose : List Nat → Option Nat) (st : GameState) (hive : Nat)
    (start : Option Nat) (minR maxR : Nat) : Option Nat :=
  nearestBeeGo choose st hive minR maxR (st.places.length + 1) start 0

/-- Modelled from the spec for comparison with nearest_bee (claim C6):
the first visited location, scanning from the defender's own location
along entrance links and stopping at the terminus, that holds at least
one attacker with cumulative distance within the inclusive range;
returns that location paired with its distance. -/
def specFirstInRange (st : GameState) (hive minR maxR : Nat) :
    Nat → Option Nat → Nat → Option (Nat × Nat)
  | _, none, _ => none
  | 0, some _, _ => none
  | fuel + 1, some pid, dist =>
    if pid = hive then none
    else
      match st.place? pid with
      | none => none
      | some p =>
        if p.bees ≠ [] ∧ minR ≤ dist ∧ dist ≤ maxR then some (pid, dist)
        else specFirstInRange st hive minR maxR fuel p.entrance (dist + 1)

/-- ThrowerAnt.throw_at: a None target is a no-op, otherwise reduce the
target's armor by the thrower's damage. -/
def throwAt (st : GameState) (selfId : Nat) (target : Option Nat) : Option GameState :=
  match target with
  | none => some st
  | some b => do
    let ins ← st.insect? selfId
    reduceArmor st b ins.damage

/-- ThrowerAnt.action (shared by Long, Short, Scuba and the queen's
throw): throw at the nearest bee in the variant's range. -/
def throwerAction (choose : List Nat → Option Nat) (st : GameState) (a : Nat) :
    Option GameState := do
  let ins ← st.insect? a
  throwAt st a (nearestBee choose st st.hiveId ins.place
    ins.kind.throwerRange.1 ins.kind.throwerRange.2)

/-- NinjaAnt.action: damage every bee in the ninja's place, iterating a
snapshot copy of the bee list. -/
def ninjaAction (st : GameState) (a : Nat) : Option GameState := do
  let ins ← st.insect? a
  let pid ← ins.place
  let p ← st.place? pid
  p.bees.foldlM (fun s b => insectReduceArmor s b ins.damage) st

/-- HungryAnt.action: count down while digesting, otherwise eat a random
bee at the ant's place (depleting its whole armor) and reset the
three-turn digestion countdown. -/
def hungryAction (choose : List Nat → Option Nat) (st : GameState) (a : Nat) :
    Option GameState := do
  let ins ← st.insect? a
  if ins.digesting > 0 then
    some (st.setInsect a { ins with digesting := ins.digesting - 1 })
  else do
    let pid ← ins.place
    let p ← st.place? pid
    match choose p.bees with
    | some b => do
      let st1 := st.setInsect a { ins with digesting := 3 }
      let bIns ← st1.insect? b
      insectReduceArmor st1 b bIns.armor
    | none => some st

/-- One leg of QueenAnt.ants_in_same_tunnel: follow entrance links (when
useEntrance) or exit links until None; at each place holding an ant not
yet in the list, if that ant is a container double its contained ant's
damage and record it (dereferencing an empty slot raises), then double
the visible ant's damage and record it. -/
def tunnelWalk (useEntrance : Bool) :
    Nat → GameState → Option Nat → List Nat → Option (GameState × List Nat)
  | _, st, none, ants => some (st, ants)
  | 0, _, some _, _ => none
  | fuel + 1, st, some pid, ants => do
    let p ← st.place? pid
    let link := if useEntrance then p.entrance else p.exit
    match p.ant with
    | none => tunnelWalk useEntrance fuel st link ants
    | some a =>
      if a ∈ ants then tunnelWalk useEntrance fuel st link ants
      else do
        let aIns ← st.insect? a
        if aIns.kind.container then do
          let c ← aIns.ant
          let cIns ← st.insect? c
          let st1 := st.setInsect c { cIns with damage := cIns.damage * 2 }
          let aIns1 ← st1.insect? a
          let st2 := st1.setInsect a { aIns1 with damage := aIns1.damage * 2 }
          tunnelWalk useEntrance fuel st2 link ((ants ++ [c]) ++ [a])
        else
          let st2 := st.setInsect a { aIns with damage := aIns.damage * 2 }
          tunnelWalk useEntrance fuel st2 link (ants ++ [a])

/-- QueenAnt.ants_in_same_tunnel: defensively double a containing
occupant of the queen's own place, then walk the tunnel toward the
entrance and toward the exit, doubling and recording as in the
source. -/
def antsInSameTunnel (st : GameState) (q : Nat) (ants : List Nat) :
    Option (GameState × List Nat) := do
  let ins ← st.insect? q
  let pid ← ins.place
  let p ← st.place? pid
  let a0 ← p.ant
  let a0Ins ← st.insect? a0
  let startState :=
    if a0Ins.kind.container then
      if a0 ∈ ants then (st, ants)
      else (st.setInsect a0 { a0Ins with damage := a0Ins.damage * 2 }, ants ++ [a0])
    else (st, ants)
  let st2 ← tunnelWalk true (startState.1.places.length + 1) startState.1
    p.entrance startState.2
  tunnelWalk false (st2.1.places.length + 1) st2.1 p.exit st2.2

/-- QueenAnt.action: an impostor queen reduces its own armor by its full
armor; the true queen rewraps colony.queen as a QueenPlace of the old
reference and her own place, throws at the nearest bee, then runs the
tunnel walk and stores the updated double_dmg_ants list on herself. -/
def queenAction (choose : List Nat → Option Nat) (st : GameState) (q : Nat) :
    Option GameState := do
  let ins ← st.insect? q
  if !ins.trueQueen then reduceArmor st q ins.armor
  else do
    let st1 := { st with queenRef := .qplace st.queenRef ins.place }
    let st2 ← throwerAction choose st1 q
    let ins2 ← st2.insect? q
    let st3 ← antsInSameTunnel st2 q ins2.doubleDmgAnts
    let ins3 ← st3.1.insect? q
    some (st3.1.setInsect q { ins3 with doubleDmgAnts := st3.2 })

/-- Per-variant dispatch of Ant action methods.  The fuel bounds
BodyguardAnt's delegation to its contained ant's action (dereferencing
an empty slot raises); variants with no overridden action inherit
Insect.action, a no-op. -/
def antActionFuel (choose : List Nat → Option Nat) :
    Nat → GameState → Nat → Option GameState
  | 0, _, _ => none
  | fuel + 1, st, a => do
    let ins ← st.insect? a
    match ins.kind with
    | .harvester => some { st with food := st.food + 1 }
    | .thrower => throwerAction choose st a
    | .long => throwerAction choose st a
    | .short => throwerAction choose st a
    | .scuba => throwerAction choose st a
    | .ninja => ninjaAction st a
    | .hungry => hungryAction choose st a
    | .bodyguard => do
      let c ← ins.ant
      antActionFuel choose fuel st c
    | .queen => queenAction choose st a
    | _ => some st

/-- Bee.blocked: the bee's place holds an ant whose block_path is
True. -/
def beeBlocked (st : GameState) (b : Nat) : Option Bool := do
  let ins ← st.insect? b
  let pid ← ins.place
  let p ← st.place? pid
  match p.ant with
  | some a => do
    let aIns ← st.insect? a
    some aIns.kind.blockPath
  | none => some false

/-- Bee.move_to: remove from the current place, then add to the new
place (through the place's own add_insect). -/
def moveTo (st : GameState) (b : Nat) (dest : Nat) : Option GameState := do
  let ins ← st.insect? b
  let pid ← ins.place
  let st1 ← removeInsect st pid b
  placeAddInsect st1 dest b

/-- Bee.action: sting the blocking ant (1 damage), else move to the exit
unless at the Hive or already out of armor. -/
def beeAction (st : GameState) (b : Nat) : Option GameState := do
  let ins ← st.insect? b
  let blocked ← beeBlocked st b
  if blocked then do
    let pid ← ins.place
    let p ← st.place? pid
    let a ← p.ant
    reduceArmor st a 1
  else do
    let pid ← ins.place
    let p ← st.place? pid
    if !p.isHive && ins.armor > 0 then do
      let e ← p.exit
      moveTo st b e
    else some st

/-- An Ant constructor invocation: append a fresh insect record to the
arena.  QueenAnt.__init__ consults and bumps the class-level
number_of_queens counter, making only the first constructed queen the
true queen. -/
def mkInsect (st : GameState) (kind : InsectKind) : GameState × Nat :=
  let isFirstQueen : Bool := (kind == .queen) && (st.numberOfQueens == 0)
  let ins : Insect :=
    { kind := kind, armor := kind.initialArmor, place := none, damage := kind.damage0,
      ant := none, trueQueen := isFirstQueen, digesting := 0, doubleDmgAnts := [] }
  let nq := if isFirstQueen then st.numberOfQueens + 1 else st.numberOfQueens
  ({ st with insects := st.insects ++ [ins], numberOfQueens := nq }, st.insects.length)

/-- AntColony.deploy_ant: with food below the cost, report the shortage
and take no action; otherwise construct the ant, add it to the named
place, and deduct the cost.  The Bool records whether a unit was
placed. -/
def deployAnt (st : GameState) (pid : Nat) (kind : InsectKind) :
    Option (GameState × Bool) :=
  if st.food < kind.foodCost then some (st, false)
  else do
    let made := mkInsect st kind
    let st2 ← placeAddInsect made.1 pid made.2
    some ({ st2 with food := st2.food - kind.foodCost }, true)

/-- AntColony.ants: the visible slot occupants of the registered places,
in registration order. -/
def GameState.colonyAnts (st : GameState) : List Nat :=
  st.registered.filterMap fun pid =>
    match st.place? pid with
    | some p => p.ant
    | none => none

/-- AntColony.bees: all bees of the registered places (the Hive is
registered, so bees still in the Hive are included). -/
def GameState.colonyBees (st : GameState) : List Nat :=
  (st.registered.map fun pid => st.beesAt pid).flatten

/-- An ant's action with the standard fuel (containment chains are
shorter than the arena). -/
def antAction (choose : List Nat → Option Nat) (st : GameState) (a : Nat) :
    Option GameState :=
  antActionFuel choose (st.insects.length + 1) st a

/-- The defender-action phase: snapshot colony.ants, then let each act
when its live armor is positive. -/
def antPhase (choose : List Nat → Option Nat) (st : GameState) : Option GameState :=
  st.colonyAnts.foldlM (fun s a =>
    match s.insect? a with
    | some ins =>
      if ins.armor > 0 then antAction choose s a
      else some s
    | none => none) st

/-- The attacker-action phase: snapshot colony.bees, then let each act
when its live armor is positive, bumping the observation counter on each
Bee.action invocation. -/
def beePhase (st : GameState) : Option GameState :=
  st.colonyBees.foldlM (fun s b =>
    match s.insect? b with
    | some ins =>
      if ins.armor > 0 then beeAction { s with beeActionCount := s.beeActionCount + 1 } b
      else some s
    | none => none) st

/-- Hive.strategy: compute the registered places whose entrance is the
hive, then move every bee scheduled for the current time into a randomly
chosen one (random.choice on an empty list raising). -/
def hiveStrategy (choose : List Nat → Option Nat) (plan : Nat → List Nat)
    (st : GameState) : Option GameState :=
  let exits := st.registered.filter fun pid =>
    match st.place? pid with
    | some p => p.entrance = some st.hiveId
    | none => false
  (plan st.time).foldlM (fun s b =>
    match choose exits with
    | some e => moveTo s b e
    | none => none) st

/-- The bees of colony.queen: a plain place contributes its bee list, a
QueenPlace concatenates its colony-queen component's bees with the bees
of the queen ant's place (attribute access on a None place raising). -/
def queenRefBees (st : GameState) : QueenRef → Option (List Nat)
  | .place pid =>
    match st.place? pid with
    | some p => some p.bees
    | none => none
  | .qplace q ap => do
    let l1 ← queenRefBees st q
    let pid ← ap
    let p ← st.place? pid
    some (l1 ++ p.bees)

/-- One cycle of AntColony.simulate: bees invade per the assault plan,
the ant strategy deploys, ants act, bees act, and time advances. -/
def step (choose : List Nat → Option Nat) (plan : Nat → List Nat)
    (strat : GameState → Option GameState) (st : GameState) : Option GameState := do
  let st1 ← hiveStrategy choose plan st
  let st2 ← strat st1
  let st3 ← antPhase choose st2
  let st4 ← beePhase st3
  some { st4 with time := st4.time + 1 }

/-- The two terminal outcomes of AntColony.simulate. -/
inductive SimResult where
  | won
  | lost
deriving DecidableEq

/-- AntColony.simulate: loop while colony.queen holds no bees and some
bee remains anywhere; on exit the outcome is lost exactly when
colony.queen holds a bee.  Fuel bounds the loop (none models a run
longer than the fuel, never a decided outcome). -/
def runSim (choose : List Nat → Option Nat) (plan : Nat → List Nat)
    (strat : GameState → Option GameState) :
    Nat → GameState → Option (SimResult × GameState)
  | 0, _ => none
  | fuel + 1, st => do
    let qb ← queenRefBees st st.queenRef
    if qb.isEmpty && !st.colonyBees.isEmpty then do
      let st1 ← step choose plan strat st
      runSim choose plan strat fuel st1
    else some (if qb.isEmpty then .won else .lost, st)

/-!
Status effects (make_slow, make_stun, apply_effect).

apply_effect installs a closure capturing the previous action and a
mutable remaining-duration counter.  The embedding reifies a bee's
action attribute as a value: the bee's original bound action, or a
wrapper carrying the effect kind, the counter, and the captured previous
action (which may itself be a wrapper, since effects layer).
-/

/-- The two built-in effect constructors of ants.py. -/
inductive EffectKind where
  | slow
  | stun
deriving DecidableEq

/-- A reified bee action attribute. -/
inductive BeeAction where
  | original
  | wrapper (e : EffectKind) (duration : Nat) (orig : BeeAction)
deriving DecidableEq

/-- apply_effect: replace the bee's action with a wrapper over whatever
action was installed, carrying the duration counter. -/
def applyEffect (e : EffectKind) (a : BeeAction) (duration : Nat) : BeeAction :=
  .wrapper e duration a

/-- Which version of the underlying behavior a single invocation ran:
the effect-transformed version of the captured original, or the original
action directly. -/
inductive RanVersion where
  | direct
  | effected (e : EffectKind)
deriving DecidableEq

/-- One invocation of a bee's action attribute at a colony time.  A
wrapper with positive remaining duration decrements the counter and runs
the effect-transformed captured action: stun does nothing, slow invokes
the captured action only at even colony time.  A wrapper whose counter
is exhausted invokes the captured action directly, forever. -/
def invokeAction : BeeAction → Nat → BeeAction × RanVersion
  | .original, _ => (.original, .direct)
  | .wrapper e (d + 1) o, t =>
    match e with
    | .stun => (.wrapper e d o, .effected .stun)
    | .slow =>
      if t % 2 = 0 then (.wrapper e d (invokeAction o t).1, .effected .slow)
      else (.wrapper e d o, .effected .slow)
  | .wrapper e 0 o, t => ((.wrapper e 0 (invokeAction o t).1), (invokeAction o t).2)

/-- The action attribute after k invocations at the times given by
ts. -/
def actionAfter (a : BeeAction) (ts : Nat → Nat) : Nat → BeeAction
  | 0 => a
  | k + 1 => (invokeAction (actionAfter a ts k) (ts k)).1

/-- Which version invocation number k (zero-based) ran. -/
def ranAt (a : BeeAction) (ts : Nat → Nat) (k : Nat) : RanVersion :=
  (invokeAction (actionAfter a ts k) (ts k)).2

/-!
The placement invariant used by the destruction theorems: every bee
listed at a place is a live non-ant pointing back at that place, the
lists hold no duplicates, and every slot occupant is an ant pointing
back at its place.
-/

/-- One listed bee is consistent with its hosting place. -/
def insectOkBee (st : GameState) (pid b : Nat) : Bool :=
  match st.insect? b with
  | some ins => !ins.kind.isAnt && ins.place == some pid && decide (0 < ins.armor)
  | none => false

/-- One place's occupants are consistent with the insect arena. -/
def placeOk (st : GameState) (pid : Nat) : Bool :=
  match st.place? pid with
  | none => true
  | some p =>
    decide p.bees.Nodup && p.bees.all (insectOkBee st pid) &&
    (match p.ant with
     | none => true
     | some a =>
       match st.insect? a with
       | some ins => ins.kind.isAnt && ins.place == some pid
       | none => false)

/-- The whole-state placement invariant. -/
def Inv (st : GameState) : Bool :=
  (List.range st.places.length).all (placeOk st)

/-!
Concrete scenario for claim C3: the test layout with one tunnel of
length 8 (place ids: 0 the AntQueen place, 1 the Hive, 2..9 the places
tunnel_0_0 .. tunnel_0_7), a single 3-armor bee scheduled at time 2, a
strategy that deploys one ThrowerAnt (damage 1, armor 1, range 0..10)
into tunnel_0_0 at time 0, and ample food.
-/

/-- A tunnel place of the C3 layout. -/
def c3Tunnel (exitTo entranceFrom : Nat) : Place :=
  { exit := some exitTo, entrance := some entranceFrom, bees := [], ant := none,
    isWater := false, isHive := false }

/-- The initial C3 colony state. -/
def c3Init : GameState :=
  { places :=
      [ { exit := none, entrance := some 2, bees := [], ant := none,
          isWater := false, isHive := false },
        { exit := none, entrance := none, bees := [0], ant := none,
          isWater := false, isHive := true },
        c3Tunnel 0 3, c3Tunnel 2 4, c3Tunnel 3 5, c3Tunnel 4 6,
        c3Tunnel 5 7, c3Tunnel 6 8, c3Tunnel 7 9,
        { exit := some 8, entrance := some 1, bees := [], ant := none,
          isWater := false, isHive := false } ],
    registered := [1, 2, 3, 4, 5, 6, 7, 8, 9],
    insects :=
      [ { kind := .bee, armor := 3, place := some 1, damage := 0, ant := none,
          trueQueen := false, digesting := 0, doubleDmgAnts := [] } ],
    food := 10, time := 0, hiveId := 1, queenRef := .place 0,
    numberOfQueens := 0, beeActionCount := 0 }

/-- The C3 assault plan: one bee at time 2. -/
def c3Plan (t : Nat) : List Nat :=
  if t = 2 then [0] else []

/-- The C3 deployment strategy: one ThrowerAnt into tunnel_0_0 at time
0. -/
def c3Strategy (st : GameState) : Option GameState :=
  if st.time = 0 then
    match deployAnt st 2 .thrower with
    | some r => some r.1
    | none => none
  else some st

/-!
Concrete scenario for claim C2: the true queen at place 0, a plain
ThrowerAnt at place 1 on the entrance side, the hive at place 2.  The
queen acts (doubling the thrower once), then a fresh BodyguardAnt is
placed over the thrower, then the queen acts again.
-/

/-- The C2 initial state: true queen at place 0, thrower at place 1. -/
def c2St : GameState :=
  { places :=
      [ { exit := none, entrance := some 1, bees := [], ant := some 0,
          isWater := false, isHive := false },
        { exit := some 0, entrance := some 2, bees := [], ant := some 1,
          isWater := false, isHive := false },
        { exit := none, entrance := none, bees := [], ant := none,
          isWater := false, isHive := true } ],
    registered := [2, 1, 0],
    insects :=
      [ { kind := .queen, armor := 1, place := some 0, damage := 1, ant := none,
          trueQueen := true, digesting := 0, doubleDmgAnts := [] },
        { kind := .thrower, armor := 1, place := some 1, damage := 1, ant := none,
          trueQueen := false, digesting := 0, doubleDmgAnts := [] } ],
    food := 10, time := 0, hiveId := 2, queenRef := .place 0,
    numberOfQueens := 1, beeActionCount := 0 }

/-- Extend a state's arena with a freshly constructed BodyguardAnt (as
the deploy path's constructor would). -/
def withFreshBodyguard (st : GameState) : GameState :=
  { st with insects := st.insects ++
      [{ kind := .bodyguard, armor := 2, place := none, damage := 0, ant := none,
         trueQueen := false, digesting := 0, doubleDmgAnts := [] }] }

/-- The C2 pipeline: queen acts, a bodyguard is placed over the already
doubled thrower, the queen acts again; observe the thrower's damage. -/
def c2Run : Option Int :=
  match queenAction List.head? c2St 0 with
  | none => none
  | some st1 =>
    match addInsect (withFreshBodyguard st1) 1 2 with
    | none => none
    | some st2 =>
      match queenAction List.head? st2 0 with
      | none => none
      | some st3 =>
        match st3.insect? 1 with
        | some ins => some ins.damage
        | none => none

/-!
Frame lemmas: the scalar components of the state that the graph and
combat operations never touch.
-/

/-- The components of the state untouched by insect-level and
place-level mutation (everything except the contents of the two
arenas). -/
def SameFrame (st st' : GameState) : Prop :=
  st'.food = st.food ∧ st'.time = st.time ∧ st'.hiveId = st.hiveId ∧
  st'.queenRef = st.queenRef ∧ st'.numberOfQueens = st.numberOfQueens ∧
  st'.registered = st.registered ∧ st'.beeActionCount = st.beeActionCount ∧
  st'.places.length = st.places.length ∧ st'.insects.length = st.insects.length

/-- All fields of an insect except its damage value. -/
def ndView (i : Insect) :
    InsectKind × Int × Option Nat × Option Nat × Bool × Nat × List Nat :=
  (i.kind, i.armor, i.place, i.ant, i.trueQueen, i.digesting, i.doubleDmgAnts)

/-- A concrete state holding one empty bodyguard, for the C9
witness. -/
def c9St : GameState :=
  { places := [{ exit := none, entrance := none, bees := [], ant := some 0,
                 isWater := false, isHive := false }],
    registered := [0],
    insects := [{ kind := .bodyguard, armor := 2, place := some 0, damage := 0,
                  ant := none, trueQueen := false, digesting := 0,
                  doubleDmgAnts := [] }],
    food := 0, time := 0, hiveId := 9, queenRef := .place 0,
    numberOfQueens := 0, beeActionCount := 0 }

/-- A one-place colony with an empty budget, for the C7 witness. -/
def c7Poor : GameState :=
  { places := [{ exit := none, entrance := none, bees := [], ant := none,
                 isWater := false, isHive := false }],
    registered := [0], insects := [], food := 0, time := 0, hiveId := 9,
    queenRef := .place 0, numberOfQueens := 0, beeActionCount := 0 }

/-- The same colony with a generous budget. -/
def c7Rich : GameState :=
  { c7Poor with food := 10 }

/-- The state and report produced by deploying a thrower into c7Rich. -/
def c7RichRes : GameState × Bool :=
  ({ places := [{ exit := none, entrance := none, bees := [], ant := some 0,
                  isWater := false, isHive := false }],
     registered := [0],
     insects := [{ kind := .thrower, armor := 1, place := some 0, damage := 1,
                   ant := none, trueQueen := false, digesting := 0,
                   doubleDmgAnts := [] }],
     food := 6, time := 0, hiveId := 9, queenRef := .place 0,
     numberOfQueens := 0, beeActionCount := 0 }, true)

/-- The single place of the C5 witness state, occupied by the plain
thrower. -/
def c5Place : Place :=
  { exit := none, entrance := none, bees := [], ant := some 0,
    isWater := false, isHive := false }

/-- The plain defender of the C5 witness state. -/
def c5Thrower : Insect :=
  { kind := .thrower, armor := 1, place := some 0, damage := 1, ant := none,
    trueQueen := false, digesting := 0, doubleDmgAnts := [] }

/-- The fresh bodyguard of the C5 witness state. -/
def c5Guard : Insect :=
  { kind := .bodyguard, armor := 2, place := none, damage := 0, ant := none,
    trueQueen := false, digesting := 0, doubleDmgAnts := [] }

/-- The C5 witness state: a thrower standing at place 0 and an
unplaced fresh bodyguard. -/
def c5St : GameState :=
  { places := [c5Place], registered := [0], insects := [c5Thrower, c5Guard],
    food := 0, time := 0, hiveId := 9, queenRef := .place 0,
    numberOfQueens := 0, beeActionCount := 0 }

/-- The chain for the C6 witness: the thrower's place 0, a place 1
holding one bee, and the hive at 2. -/
def c6St : GameState :=
  { places :=
      [ { exit := none, entrance := some 1, bees := [], ant := none,
          isWater := false, isHive := false },
        { exit := some 0, entrance := some 2, bees := [7], ant := none,
          isWater := false, isHive := false },
        { exit := none, entrance := none, bees := [], ant := none,
          isWater := false, isHive := true } ],
    registered := [2, 1, 0], insects := [], food := 0, time := 0, hiveId := 2,
    queenRef := .place 0, numberOfQueens := 0, beeActionCount := 0 }

/-- Consistent placement of one listed bee, as needed by the fire ant's
detonation fold. -/
def BeePlaced (st : GameState) (b : Nat) : Prop :=
  ∃ insB pb pB, st.insect? b = some insB ∧ insB.kind.isAnt = false ∧
    insB.place = some pb ∧ st.place? pb = some pB ∧ b ∈ pB.bees ∧ pB.bees.Nodup

/-- The state after the first queen walk of the c2 scenario: the thrower
at place 1 has been doubled once and recorded. -/
def c2AfterSt : GameState :=
  { c2St with insects :=
      [ { kind := .queen, armor := 1, place := some 0, damage := 1, ant := none,
          trueQueen := true, digesting := 0, doubleDmgAnts := [] },
        { kind := .thrower, armor := 1, place := some 1, damage := 2, ant := none,
          trueQueen := false, digesting := 0, doubleDmgAnts := [] } ] }

/-- A one-insect state holding an impostor queen, for the C2 witness. -/
def c2ImpSt : GameState :=
  { places := [{ exit := none, entrance := none, bees := [], ant := some 0,
                 isWater := false, isHive := false }],
    registered := [0],
    insects := [{ kind := .queen, armor := 1, place := some 0, damage := 1, ant := none,
                  trueQueen := false, digesting := 0, doubleDmgAnts := [] }],
    food := 0, time := 0, hiveId := 9, queenRef := .place 0,
    numberOfQueens := 1, beeActionCount := 0 }

/-- The C10 witness state: colony.queen already wraps the queen ant's
place 1, where a bee stands. -/
def c10St : GameState :=
  { places :=
      [ { exit := none, entrance := some 1, bees := [], ant := none,
          isWater := false, isHive := false },
        { exit := some 0, entrance := none, bees := [3], ant := some 0,
          isWater := false, isHive := false } ],
    registered := [1, 0],
    insects :=
      [ { kind := .queen, armor := 1, place := some 1, damage := 1, ant := none,
          trueQueen := true, digesting := 0, doubleDmgAnts := [] } ],
    food := 0, time := 0, hiveId := 9, queenRef := .qplace (.place 0) (some 1),
    numberOfQueens := 1, beeActionCount := 0 }

def c8St : GameState :=
  { places :=
      [ { exit := none, entrance := none, bees := [0], ant := none,
          isWater := true, isHive := false } ],
    registered := [0],
    insects :=
      [ { kind := .bee, armor := 5, place := some 0, damage := 1, ant := none,
          trueQueen := false, digesting := 0, doubleDmgAnts := [] },
        { kind := .fire, armor := 1, place := none, damage := 3, ant := none,
          trueQueen := false, digesting := 0, doubleDmgAnts := [] },
        { kind := .scuba, armor := 1, place := none, damage := 1, ant := none,
          trueQueen := false, digesting := 0, doubleDmgAnts := [] },
        { kind := .bodyguard, armor := 2, place := none, damage := 0, ant := none,
          trueQueen := false, digesting := 0, doubleDmgAnts := [] } ],
    food := 0, time := 0, hiveId := 0, queenRef := .place 0,
    numberOfQueens := 0, beeActionCount := 0 }

theorem inv_placeOk {st : GameState} (h : Inv st = true) (pid : Nat) :
    placeOk st pid = true := by
  by_cases hlt : pid < st.places.length
  · exact List.all_eq_true.mp h pid (List.mem_range.mpr hlt)
  · unfold placeOk
    have : st.place? pid = none := by
      simp [GameState.place?]
      omega
    rw [this]

theorem placeOk_spec {st : GameState} {pid : Nat} {p : Place}
    (h : placeOk st pid = true) (hp : st.place? pid = some p) :
    p.bees.Nodup ∧
    (∀ b ∈ p.bees, ∃ ins, st.insect? b = some ins ∧ ins.kind.isAnt = false ∧
      ins.place = some pid ∧ 0 < ins.armor) ∧
    (∀ a, p.ant = some a → ∃ ins, st.insect? a = some ins ∧ ins.kind.isAnt = true ∧
      ins.place = some pid) := by
  unfold placeOk at h
  rw [hp] at h
  simp only [Bool.and_eq_true, decide_eq_true_eq, List.all_eq_true] at h
  obtain ⟨⟨hnd, hbees⟩, hant⟩ := h
  refine ⟨hnd, fun b hb => ?_, fun a ha => ?_⟩
  · have hx := hbees b hb
    unfold insectOkBee at hx
    rcases hins : st.insect? b with _ | ins
    · rw [hins] at hx
      exact Bool.noConfusion hx
    · rw [hins] at hx
      simp only [Bool.and_eq_true, Bool.not_eq_true', beq_iff_eq, decide_eq_true_eq] at hx
      exact ⟨ins, rfl, hx.1.1, hx.1.2, hx.2⟩
  · rw [ha] at hant
    dsimp only at hant
    rcases hins : st.insect? a with _ | ins
    · rw [hins] at hant
      exact Bool.noConfusion hant
    · rw [hins] at hant
      simp only [Bool.and_eq_true, beq_iff_eq] at hant
      exact ⟨ins, rfl, hant.1, hant.2⟩

/-!
Arena lookup and update lemmas.
-/

theorem lt_of_place?_eq_some {st : GameState} {pid : Nat} {p : Place}
    (h : st.place? pid = some p) : pid < st.places.length := by
  simpa using (List.getElem?_eq_some.mp h).1

theorem lt_of_insect?_eq_some {st : GameState} {iid : Nat} {ins : Insect}
    (h : st.insect? iid = some ins) : iid < st.insects.length := by
  simpa using (List.getElem?_eq_some.mp h).1

theorem place?_setPlace_self (st : GameState) (pid : Nat) (p : Place)
    (h : pid < st.places.length) : (st.setPlace pid p).place? pid = some p := by
  simp [GameState.setPlace, GameState.place?, List.getElem?_set_self h]

theorem place?_setPlace_ne (st : GameState) {pid q : Nat} (p : Place) (h : pid ≠ q) :
    (st.setPlace pid p).place? q = st.place? q := by
  simp [GameState.setPlace, GameState.place?, List.getElem?_set_ne h]

theorem place?_setInsect (st : GameState) (iid : Nat) (ins : Insect) (pid : Nat) :
    (st.setInsect iid ins).place? pid = st.place? pid := rfl

theorem insect?_setPlace (st : GameState) (pid : Nat) (p : Place) (iid : Nat) :
    (st.setPlace pid p).insect? iid = st.insect? iid := rfl

theorem insect?_setInsect_self (st : GameState) (iid : Nat) (ins : Insect)
    (h : iid < st.insects.length) : (st.setInsect iid ins).insect? iid = some ins := by
  simp [GameState.setInsect, GameState.insect?, List.getElem?_set_self h]

theorem insect?_setInsect_ne (st : GameState) {iid j : Nat} (ins : Insect) (h : iid ≠ j) :
    (st.setInsect iid ins).insect? j = st.insect? j := by
  simp [GameState.setInsect, GameState.insect?, List.getElem?_set_ne h]

theorem sameFrame_refl (st : GameState) : SameFrame st st := by
  simp [SameFrame]

theorem sameFrame_trans {a b c : GameState} (h1 : SameFrame a b) (h2 : SameFrame b c) :
    SameFrame a c := by
  obtain ⟨x1, x2, x3, x4, x5, x6, x7, x8, x9⟩ := h1
  obtain ⟨y1, y2, y3, y4, y5, y6, y7, y8, y9⟩ := h2
  exact ⟨y1.trans x1, y2.trans x2, y3.trans x3, y4.trans x4, y5.trans x5,
    y6.trans x6, y7.trans x7, y8.trans x8, y9.trans x9⟩

theorem sameFrame_setPlace (st : GameState) (pid : Nat) (p : Place) :
    SameFrame st (st.setPlace pid p) := by
  simp [SameFrame, GameState.setPlace]

theorem sameFrame_setInsect (st : GameState) (iid : Nat) (ins : Insect) :
    SameFrame st (st.setInsect iid ins) := by
  simp [SameFrame, GameState.setInsect]

theorem removeInsect_frame {st st' : GameState} {pid iid : Nat}
    (h : removeInsect st pid iid = some st') : SameFrame st st' := by
  simp only [removeInsect, Option.bind_eq_bind, Option.bind_eq_some] at h
  obtain ⟨p, hp, ins, hins, h⟩ := h
  split at h
  · split at h
    · split at h
      · simp only [Option.bind_eq_some] at h
        obtain ⟨c, hc, cIns, hcIns, h⟩ := h
        injection h with h1
        subst h1
        simp [SameFrame, GameState.setPlace, GameState.setInsect]
      · split at h
        · injection h with h1
          subst h1
          exact sameFrame_refl _
        · injection h with h1
          subst h1
          simp [SameFrame, GameState.setPlace, GameState.setInsect]
    · exact Option.noConfusion h
  · split at h
    · injection h with h1
      subst h1
      simp [SameFrame, GameState.setPlace, GameState.setInsect]
    · exact Option.noConfusion h

theorem insectReduceArmor_frame {st st' : GameState} {iid : Nat} {amount : Int}
    (h : insectReduceArmor st iid amount = some st') : SameFrame st st' := by
  simp only [insectReduceArmor, Option.bind_eq_bind, Option.bind_eq_some] at h
  obtain ⟨ins, hins, h⟩ := h
  by_cases harm : ({ ins with armor := ins.armor - amount } : Insect).armor ≤ 0
  · rw [if_pos harm] at h
    simp only [Option.bind_eq_some] at h
    obtain ⟨pid, hpid, h⟩ := h
    exact sameFrame_trans (sameFrame_setInsect ..) (removeInsect_frame h)
  · rw [if_neg harm] at h
    injection h with h1
    subst h1
    exact sameFrame_setInsect ..

theorem foldlM_frame {f : GameState → Nat → Option GameState}
    (hf : ∀ s b s', f s b = some s' → SameFrame s s') :
    ∀ (l : List Nat) (s s' : GameState), l.foldlM f s = some s' → SameFrame s s' := by
  intro l
  induction l with
  | nil =>
    intro s s' h
    simp only [List.foldlM_nil] at h
    injection h with h1
    subst h1
    exact sameFrame_refl _
  | cons b t ih =>
    intro s s' h
    simp only [List.foldlM_cons] at h
    match hm : f s b with
    | none => rw [hm] at h; exact absurd h (by simp)
    | some s1 =>
      rw [hm] at h
      exact sameFrame_trans (hf _ _ _ hm) (ih _ _ h)

theorem fireReduceArmor_frame {st st' : GameState} {iid : Nat} {amount : Int}
    (h : fireReduceArmor st iid amount = some st') : SameFrame st st' := by
  simp only [fireReduceArmor, Option.bind_eq_bind, Option.bind_eq_some] at h
  obtain ⟨ins, hins, pid, hpid, p, hp, h⟩ := h
  by_cases harm : ({ ins with armor := ins.armor - amount } : Insect).armor ≤ 0
  · rw [if_pos harm] at h
    simp only [Option.bind_eq_some] at h
    obtain ⟨st2, hfold, ins2, hins2, pid2, hpid2, h⟩ := h
    exact sameFrame_trans (sameFrame_setInsect ..)
      (sameFrame_trans
        (foldlM_frame (fun s b s' hs => insectReduceArmor_frame hs) _ _ _ hfold)
        (removeInsect_frame h))
  · rw [if_neg harm] at h
    injection h with h1
    subst h1
    exact sameFrame_setInsect ..

theorem reduceArmor_frame {st st' : GameState} {iid : Nat} {amount : Int}
    (h : reduceArmor st iid amount = some st') : SameFrame st st' := by
  simp only [reduceArmor, Option.bind_eq_bind, Option.bind_eq_some] at h
  obtain ⟨ins, hins, h⟩ := h
  split at h
  · exact fireReduceArmor_frame h
  · exact insectReduceArmor_frame h

theorem addInsect_frame {st st' : GameState} {pid iid : Nat}
    (h : addInsect st pid iid = some st') : SameFrame st st' := by
  simp only [addInsect, Option.bind_eq_bind, Option.bind_eq_some] at h
  obtain ⟨p, hp, ins, hins, h⟩ := h
  split at h
  · split at h
    · simp only [Option.bind_eq_some] at h
      obtain ⟨aIns, haIns, h⟩ := h
      split at h
      · injection h with h1
        subst h1
        simp [SameFrame, GameState.setPlace, GameState.setInsect]
      · split at h
        · injection h with h1
          subst h1
          simp [SameFrame, GameState.setPlace, GameState.setInsect]
        · exact Option.noConfusion h
    · injection h with h1
      subst h1
      simp [SameFrame, GameState.setPlace, GameState.setInsect]
  · injection h with h1
    subst h1
    simp [SameFrame, GameState.setPlace, GameState.setInsect]

theorem waterAddInsect_frame {st st' : GameState} {pid iid : Nat}
    (h : waterAddInsect st pid iid = some st') : SameFrame st st' := by
  simp only [waterAddInsect, Option.bind_eq_bind, Option.bind_eq_some] at h
  obtain ⟨st1, hadd, ins, hins, h⟩ := h
  split at h
  · injection h with h1
    subst h1
    exact addInsect_frame hadd
  · exact sameFrame_trans (addInsect_frame hadd) (reduceArmor_frame h)

theorem placeAddInsect_frame {st st' : GameState} {pid iid : Nat}
    (h : placeAddInsect st pid iid = some st') : SameFrame st st' := by
  simp only [placeAddInsect, Option.bind_eq_bind, Option.bind_eq_some] at h
  obtain ⟨p, hp, h⟩ := h
  split at h
  · exact waterAddInsect_frame h
  · exact addInsect_frame h

theorem throwAt_frame {st st' : GameState} {a : Nat} {target : Option Nat}
    (h : throwAt st a target = some st') : SameFrame st st' := by
  cases target with
  | none =>
    injection h with h1
    subst h1
    exact sameFrame_refl _
  | some b =>
    simp only [throwAt, Option.bind_eq_bind, Option.bind_eq_some] at h
    obtain ⟨ins, hins, h⟩ := h
    exact reduceArmor_frame h

theorem throwerAction_frame {choose : List Nat → Option Nat} {st st' : GameState} {a : Nat}
    (h : throwerAction choose st a = some st') : SameFrame st st' := by
  simp only [throwerAction, Option.bind_eq_bind, Option.bind_eq_some] at h
  obtain ⟨ins, hins, h⟩ := h
  exact throwAt_frame h

theorem tunnelWalk_frame (useEntrance : Bool) :
    ∀ (fuel : Nat) (st : GameState) (start : Option Nat) (ants : List Nat) (out : GameState × List Nat),
      tunnelWalk useEntrance fuel st start ants = some out → SameFrame st out.1 := by
  intro fuel
  induction fuel with
  | zero =>
    intro st start ants out h
    cases start with
    | none =>
      injection h with h1
      subst h1
      exact sameFrame_refl _
    | some pid => exact Option.noConfusion h
  | succ n ih =>
    intro st start ants out h
    cases start with
    | none =>
      injection h with h1
      subst h1
      exact sameFrame_refl _
    | some pid =>
      rw [tunnelWalk] at h
      simp only [Option.bind_eq_bind, Option.bind_eq_some] at h
      obtain ⟨p, hp, h⟩ := h
      split at h
      · exact ih _ _ _ _ h
      · split at h
        · exact ih _ _ _ _ h
        · simp only [Option.bind_eq_some] at h
          obtain ⟨aIns, haIns, h⟩ := h
          split at h
          · simp only [Option.bind_eq_some] at h
            obtain ⟨c, hc, cIns, hcIns, aIns1, haIns1, h⟩ := h
            exact sameFrame_trans (sameFrame_setInsect ..)
              (sameFrame_trans (sameFrame_setInsect ..) (ih _ _ _ _ h))
          · exact sameFrame_trans (sameFrame_setInsect ..) (ih _ _ _ _ h)

theorem ndView_setInsect {st : GameState} {i : Nat} {ins insNew : Insect}
    (hins : st.insect? i = some ins) (hnd : ndView insNew = ndView ins) (j : Nat) :
    ((st.setInsect i insNew).insect? j).map ndView = (st.insect? j).map ndView := by
  by_cases hij : i = j
  · subst hij
    rw [insect?_setInsect_self _ _ _ (lt_of_insect?_eq_some hins), hins]
    simp [hnd]
  · rw [insect?_setInsect_ne _ _ hij]

theorem setInsect_places (st : GameState) (i : Nat) (ins : Insect) :
    (st.setInsect i ins).places = st.places := rfl

/-- The tunnel walk never changes the place arena. -/
theorem tunnelWalk_places (useEntrance : Bool) :
    ∀ (fuel : Nat) (st : GameState) (start : Option Nat) (ants : List Nat)
      (out : GameState × List Nat),
      tunnelWalk useEntrance fuel st start ants = some out → out.1.places = st.places := by
  intro fuel
  induction fuel with
  | zero =>
    intro st start ants out h
    cases start with
    | none =>
      injection h with h1
      subst h1
      rfl
    | some pid => exact Option.noConfusion h
  | succ n ih =>
    intro st start ants out h
    cases start with
    | none =>
      injection h with h1
      subst h1
      rfl
    | some pid =>
      rw [tunnelWalk] at h
      simp only [Option.bind_eq_bind, Option.bind_eq_some] at h
      obtain ⟨p, hp, h⟩ := h
      split at h
      · exact ih _ _ _ _ h
      · split at h
        · exact ih _ _ _ _ h
        · simp only [Option.bind_eq_some] at h
          obtain ⟨aIns, haIns, h⟩ := h
          split at h
          · simp only [Option.bind_eq_some] at h
            obtain ⟨c, hc, cIns, hcIns, aIns1, haIns1, h⟩ := h
            rw [ih _ _ _ _ h]
            rfl
          · rw [ih _ _ _ _ h]
            rfl

/-- The tunnel walk never changes a non-damage field of any insect. -/
theorem tunnelWalk_nd (useEntrance : Bool) :
    ∀ (fuel : Nat) (st : GameState) (start : Option Nat) (ants : List Nat)
      (out : GameState × List Nat),
      tunnelWalk useEntrance fuel st start ants = some out →
      ∀ j, (out.1.insect? j).map ndView = (st.insect? j).map ndView := by
  intro fuel
  induction fuel with
  | zero =>
    intro st start ants out h j
    cases start with
    | none =>
      injection h with h1
      subst h1
      rfl
    | some pid => exact Option.noConfusion h
  | succ n ih =>
    intro st start ants out h j
    cases start with
    | none =>
      injection h with h1
      subst h1
      rfl
    | some pid =>
      rw [tunnelWalk] at h
      simp only [Option.bind_eq_bind, Option.bind_eq_some] at h
      obtain ⟨p, hp, h⟩ := h
      split at h
      · exact ih _ _ _ _ h j
      · split at h
        · exact ih _ _ _ _ h j
        · simp only [Option.bind_eq_some] at h
          obtain ⟨aIns, haIns, h⟩ := h
          split at h
          · simp only [Option.bind_eq_some] at h
            obtain ⟨c, hc, cIns, hcIns, aIns1, haIns1, h⟩ := h
            rw [ih _ _ _ _ h j,
              ndView_setInsect haIns1 (by simp [ndView]) j,
              ndView_setInsect hcIns (by simp [ndView]) j]
          · rw [ih _ _ _ _ h j, ndView_setInsect haIns (by simp [ndView]) j]

/-- The tunnel walk only appends to the seen list. -/
theorem tunnelWalk_seen (useEntrance : Bool) :
    ∀ (fuel : Nat) (st : GameState) (start : Option Nat) (ants : List Nat)
      (out : GameState × List Nat),
      tunnelWalk useEntrance fuel st start ants = some out →
      ∀ x, x ∈ ants → x ∈ out.2 := by
  intro fuel
  induction fuel with
  | zero =>
    intro st start ants out h x hx
    cases start with
    | none =>
      injection h with h1
      subst h1
      exact hx
    | some pid => exact Option.noConfusion h
  | succ n ih =>
    intro st start ants out h x hx
    cases start with
    | none =>
      injection h with h1
      subst h1
      exact hx
    | some pid =>
      rw [tunnelWalk] at h
      simp only [Option.bind_eq_bind, Option.bind_eq_some] at h
      obtain ⟨p, hp, h⟩ := h
      split at h
      · exact ih _ _ _ _ h x hx
      · split at h
        · exact ih _ _ _ _ h x hx
        · simp only [Option.bind_eq_some] at h
          obtain ⟨aIns, haIns, h⟩ := h
          split at h
          · simp only [Option.bind_eq_some] at h
            obtain ⟨c, hc, cIns, hcIns, aIns1, haIns1, h⟩ := h
            exact ih _ _ _ _ h x (by simp [hx])
          · exact ih _ _ _ _ h x (by simp [hx])

/-- A completed walk is inert: running it again from any state with the
same place arena and any seen list covering the first run's output
changes nothing. -/
theorem tunnelWalk_fix (useEntrance : Bool) :
    ∀ (fuel : Nat) (st : GameState) (start : Option Nat) (ants : List Nat)
      (out : GameState × List Nat),
      tunnelWalk useEntrance fuel st start ants = some out →
      ∀ (stB : GameState) (antsB : List Nat), stB.places = st.places →
        (∀ x, x ∈ out.2 → x ∈ antsB) →
        tunnelWalk useEntrance fuel stB start antsB = some (stB, antsB) := by
  intro fuel
  induction fuel with
  | zero =>
    intro st start ants out h stB antsB hpl hsub
    cases start with
    | none => rfl
    | some pid => exact Option.noConfusion h
  | succ n ih =>
    intro st start ants out h stB antsB hpl hsub
    cases start with
    | none => rfl
    | some pid =>
      rw [tunnelWalk] at h
      simp only [Option.bind_eq_bind, Option.bind_eq_some] at h
      obtain ⟨p, hp, h⟩ := h
      have hpB : stB.place? pid = some p := by
        rw [GameState.place?, hpl]
        exact hp
      rw [tunnelWalk]
      simp only [Option.bind_eq_bind, Option.bind_eq_some, hpB, Option.some_bind]
      split at h
      · next hant =>
        exact ih _ _ _ _ h stB antsB hpl hsub
      · next a hant =>
        split at h
        · next hmem =>
          rw [if_pos (hsub a (tunnelWalk_seen useEntrance _ _ _ _ _ h a hmem))]
          exact ih _ _ _ _ h stB antsB hpl hsub
        · next hmem =>
          simp only [Option.bind_eq_some] at h
          obtain ⟨aIns, haIns, h⟩ := h
          split at h
          · simp only [Option.bind_eq_some] at h
            obtain ⟨c, hc, cIns, hcIns, aIns1, haIns1, h⟩ := h
            have haB : a ∈ antsB := by
              refine hsub a (tunnelWalk_seen useEntrance _ _ _ _ _ h a ?_)
              simp
            rw [if_pos haB]
            exact ih _ _ _ _ h stB antsB (by simpa [setInsect_places] using hpl) hsub
          · have haB : a ∈ antsB := by
              refine hsub a (tunnelWalk_seen useEntrance _ _ _ _ _ h a ?_)
              simp
            rw [if_pos haB]
            exact ih _ _ _ _ h stB antsB (by simpa [setInsect_places] using hpl) hsub

theorem map_ndView_some {x : Option Insect} {ins : Insect}
    (h : x.map ndView = some (ndView ins)) : ∃ y, x = some y ∧ ndView y = ndView ins := by
  cases x with
  | none => exact Option.noConfusion h
  | some y =>
    refine ⟨y, rfl, ?_⟩
    injection h

theorem ndView_eq_fields {y ins : Insect} (h : ndView y = ndView ins) :
    y.kind = ins.kind ∧ y.place = ins.place := by
  simp only [ndView, Prod.mk.injEq] at h
  exact ⟨h.1, h.2.2.1⟩

/-- Common core of the walk-idempotence argument: once both legs of the
queen's walk have completed from the head-adjusted state, re-running the
whole of ants_in_same_tunnel on the output changes nothing. -/
theorem antsInSameTunnelFixCore {st st1 : GameState} {q pid a0 : Nat}
    {ins a0Ins : Insect} {p : Place} {ants1 : List Nat}
    {st2 out : GameState × List Nat}
    (hins : st.insect? q = some ins) (hpid : ins.place = some pid)
    (hp : st.place? pid = some p) (ha0 : p.ant = some a0)
    (ha0Ins : st.insect? a0 = some a0Ins)
    (hstpl : st1.places = st.places)
    (hnd1 : ∀ j, (st1.insect? j).map ndView = (st.insect? j).map ndView)
    (hmem : a0Ins.kind.container = true → a0 ∈ ants1)
    (hw1 : tunnelWalk true (st1.places.length + 1) st1 p.entrance ants1 = some st2)
    (hw2 : tunnelWalk false (st2.1.places.length + 1) st2.1 p.exit st2.2 = some out) :
    antsInSameTunnel out.1 q out.2 = some out := by
  have hst2pl : st2.1.places = st.places :=
    (tunnelWalk_places true _ _ _ _ _ hw1).trans hstpl
  have houtpl : out.1.places = st.places :=
    (tunnelWalk_places false _ _ _ _ _ hw2).trans hst2pl
  have hnd : ∀ j, (out.1.insect? j).map ndView = (st.insect? j).map ndView := by
    intro j
    rw [tunnelWalk_nd false _ _ _ _ _ hw2 j, tunnelWalk_nd true _ _ _ _ _ hw1 j, hnd1 j]
  have hsub12 : ∀ x, x ∈ ants1 → x ∈ st2.2 := tunnelWalk_seen true _ _ _ _ _ hw1
  have hsub2o : ∀ x, x ∈ st2.2 → x ∈ out.2 := tunnelWalk_seen false _ _ _ _ _ hw2
  obtain ⟨ins', hins', hndq⟩ :=
    map_ndView_some (show (out.1.insect? q).map ndView = some (ndView ins) by
      rw [hnd q, hins]; rfl)
  obtain ⟨hkq, hplq⟩ := ndView_eq_fields hndq
  obtain ⟨a0Ins', ha0Ins', hnda⟩ :=
    map_ndView_some (show (out.1.insect? a0).map ndView = some (ndView a0Ins) by
      rw [hnd a0, ha0Ins]; rfl)
  obtain ⟨hka, hpla⟩ := ndView_eq_fields hnda
  have hpOut : out.1.place? pid = some p := by
    rw [GameState.place?, houtpl]
    exact hp
  have hmemOut : a0Ins.kind.container = true → a0 ∈ out.2 :=
    fun hc => hsub2o a0 (hsub12 a0 (hmem hc))
  have walk1B : tunnelWalk true (st1.places.length + 1) out.1 p.entrance out.2 =
      some (out.1, out.2) :=
    tunnelWalk_fix true _ _ _ _ _ hw1 out.1 out.2 (houtpl.trans hstpl.symm) hsub2o
  have walk2B : tunnelWalk false (st2.1.places.length + 1) out.1 p.exit out.2 =
      some (out.1, out.2) :=
    tunnelWalk_fix false _ _ _ _ _ hw2 out.1 out.2 (houtpl.trans hst2pl.symm)
      (fun x hx => hx)
  simp only [antsInSameTunnel, Option.bind_eq_bind, Option.bind_eq_some]
  refine ⟨ins', hins', pid, by rw [hplq, hpid], p, hpOut, a0, ha0, a0Ins', ha0Ins', ?_⟩
  have hIF : (if a0Ins'.kind.container = true then
      if a0 ∈ out.2 then (out.1, out.2)
      else (out.1.setInsect a0 { a0Ins' with damage := a0Ins'.damage * 2 }, out.2 ++ [a0])
    else (out.1, out.2)) = (out.1, out.2) := by
    rw [hka]
    by_cases hc : a0Ins.kind.container = true
    · rw [if_pos hc, if_pos (hmemOut hc)]
    · rw [if_neg hc]
  rw [hIF]
  refine ⟨(out.1, out.2), ?_, ?_⟩
  · show tunnelWalk true (out.1.places.length + 1) out.1 p.entrance out.2 = _
    rw [show out.1.places = st1.places from houtpl.trans hstpl.symm]
    exact walk1B
  · show tunnelWalk false (out.1.places.length + 1) out.1 p.exit out.2 = some out
    rw [show out.1.places = st2.1.places from houtpl.trans hst2pl.symm]
    exact walk2B

/-- Re-running ants_in_same_tunnel on its own output (same state, same
seen list) changes nothing: every defender the walk reaches is already
in the returned seen list. -/
theorem antsInSameTunnel_fix {st : GameState} {q : Nat} {seen : List Nat}
    {out : GameState × List Nat} (h : antsInSameTunnel st q seen = some out) :
    antsInSameTunnel out.1 q out.2 = some out := by
  simp only [antsInSameTunnel, Option.bind_eq_bind, Option.bind_eq_some] at h
  obtain ⟨ins, hins, pid, hpid, p, hp, a0, ha0, a0Ins, ha0Ins, st2, hw1, hw2⟩ := h
  by_cases hc : a0Ins.kind.container = true
  · by_cases hm : a0 ∈ seen
    · rw [if_pos hc, if_pos hm] at hw1
      exact antsInSameTunnelFixCore hins hpid hp ha0 ha0Ins rfl (fun j => rfl)
        (fun _ => hm) hw1 hw2
    · rw [if_pos hc, if_neg hm] at hw1
      exact antsInSameTunnelFixCore hins hpid hp ha0 ha0Ins
        (setInsect_places ..)
        (fun j => ndView_setInsect ha0Ins (by simp [ndView]) j)
        (fun _ => by simp) hw1 hw2
  · rw [if_neg hc] at hw1
    exact antsInSameTunnelFixCore hins hpid hp ha0 ha0Ins rfl (fun j => rfl)
      (fun hcc => absurd hcc hc) hw1 hw2

theorem damage_setInsect {st : GameState} {i : Nat} {insNew : Insect}
    (hd : (st.insect? i).map Insect.damage = some insNew.damage) (j : Nat) :
    ((st.setInsect i insNew).insect? j).map Insect.damage =
      (st.insect? j).map Insect.damage := by
  by_cases hij : i = j
  · subst hij
    rcases hx : st.insect? i with _ | old
    · rw [hx] at hd
      exact Option.noConfusion hd
    · rw [hx] at hd
      injection hd with hd1
      rw [insect?_setInsect_self _ _ _ (lt_of_insect?_eq_some hx)]
      simp [hd1]
  · rw [insect?_setInsect_ne _ _ hij]

theorem removeInsect_damage {st st' : GameState} {pid iid : Nat}
    (h : removeInsect st pid iid = some st') :
    ∀ j, (st'.insect? j).map Insect.damage = (st.insect? j).map Insect.damage := by
  intro j
  simp only [removeInsect, Option.bind_eq_bind, Option.bind_eq_some] at h
  obtain ⟨p, hp, ins, hins, h⟩ := h
  split at h
  · split at h
    · split at h
      · simp only [Option.bind_eq_some] at h
        obtain ⟨c, hc, cIns, hcIns, h⟩ := h
        injection h with h1
        subst h1
        have hstepC : ∀ k, (((st.setPlace pid { p with ant := some c }).setInsect c
            { cIns with place := some pid }).insect? k).map Insect.damage =
            (st.insect? k).map Insect.damage := by
          intro k
          rw [damage_setInsect (by rw [insect?_setPlace, hcIns]; rfl) k, insect?_setPlace]
        rw [damage_setInsect (by rw [hstepC iid, hins]; rfl) j, hstepC j]
      · split at h
        · injection h with h1
          subst h1
          rfl
        · injection h with h1
          subst h1
          rw [damage_setInsect (by rw [insect?_setPlace, hins]; rfl) j, insect?_setPlace]
    · exact Option.noConfusion h
  · split at h
    · injection h with h1
      subst h1
      rw [damage_setInsect (by rw [insect?_setPlace, hins]; rfl) j, insect?_setPlace]
    · exact Option.noConfusion h

theorem insectReduceArmor_damage {st st' : GameState} {iid : Nat} {amount : Int}
    (h : insectReduceArmor st iid amount = some st') :
    ∀ j, (st'.insect? j).map Insect.damage = (st.insect? j).map Insect.damage := by
  intro j
  simp only [insectReduceArmor, Option.bind_eq_bind, Option.bind_eq_some] at h
  obtain ⟨ins, hins, h⟩ := h
  by_cases harm : ({ ins with armor := ins.armor - amount } : Insect).armor ≤ 0
  · rw [if_pos harm] at h
    simp only [Option.bind_eq_some] at h
    obtain ⟨pid, hpid, h⟩ := h
    rw [removeInsect_damage h j, damage_setInsect (by rw [hins]; rfl) j]
  · rw [if_neg harm] at h
    injection h with h1
    subst h1
    rw [damage_setInsect (by rw [hins]; rfl) j]

theorem antsInSameTunnel_frame {st : GameState} {q : Nat} {ants : List Nat}
    {out : GameState × List Nat} (h : antsInSameTunnel st q ants = some out) :
    SameFrame st out.1 := by
  simp only [antsInSameTunnel, Option.bind_eq_bind, Option.bind_eq_some] at h
  obtain ⟨ins, hins, pid, hpid, p, hp, a0, ha0, a0Ins, ha0Ins, st2, hw1, h⟩ := h
  have hstart : SameFrame st (if a0Ins.kind.container = true then
      if a0 ∈ ants then (st, ants)
      else (st.setInsect a0 { a0Ins with damage := a0Ins.damage * 2 }, ants ++ [a0])
    else (st, ants)).1 := by
    split
    · split
      · exact sameFrame_refl _
      · exact sameFrame_setInsect ..
    · exact sameFrame_refl _
  exact sameFrame_trans hstart
    (sameFrame_trans (tunnelWalk_frame true _ _ _ _ _ hw1) (tunnelWalk_frame false _ _ _ _ _ h))

/-!
Claim theorems.
-/

/-- Invocation of a wrapper installed over the plain original action
keeps the shape wrapper e (N - k) original after k invocations, at any
sequence of colony times. -/
theorem actionAfter_wrapper_original (e : EffectKind) (N : Nat) (ts : Nat → Nat) :
    ∀ k, actionAfter (applyEffect e .original N) ts k = .wrapper e (N - k) .original := by
  intro k
  induction k with
  | zero => rfl
  | succ k ih =>
    show (invokeAction (actionAfter (applyEffect e .original N) ts k) (ts k)).1 = _
    rw [ih]
    rcases hd : N - k with _ | d
    · have h1 : N - (k + 1) = 0 := by omega
      rw [h1]
      cases e <;> simp [invokeAction]
    · have h1 : N - (k + 1) = d := by omega
      rw [h1]
      cases e with
      | stun => simp [invokeAction]
      | slow =>
        by_cases ht : ts k % 2 = 0 <;> simp [invokeAction, ht]

/-- C4: applying a status effect of duration N to a unit whose installed
action is the original one makes exactly the next N invocations run the
effect-transformed version of the original action, decrementing the
remaining-duration counter each time whether or not the transformed
action does anything that turn; every invocation after the Nth runs the
original action directly, permanently and stably under arbitrarily many
further invocations. -/
theorem c4_effect_duration (e : EffectKind) (N : Nat) (ts : Nat → Nat) (k : Nat) :
    (k < N →
      actionAfter (applyEffect e .original N) ts k = .wrapper e (N - k) .original ∧
      ranAt (applyEffect e .original N) ts k = .effected e) ∧
    (N ≤ k →
      actionAfter (applyEffect e .original N) ts k = .wrapper e 0 .original ∧
      ranAt (applyEffect e .original N) ts k = .direct) := by
  constructor
  · intro hk
    refine ⟨actionAfter_wrapper_original e N ts k, ?_⟩
    show (invokeAction (actionAfter (applyEffect e .original N) ts k) (ts k)).2 = _
    rw [actionAfter_wrapper_original]
    obtain ⟨d, hd⟩ : ∃ d, N - k = d + 1 := ⟨N - k - 1, by omega⟩
    rw [hd]
    cases e with
    | stun => simp [invokeAction]
    | slow => by_cases ht : ts k % 2 = 0 <;> simp [invokeAction, ht]
  · intro hk
    have h0 : N - k = 0 := by omega
    refine ⟨by rw [actionAfter_wrapper_original, h0], ?_⟩
    show (invokeAction (actionAfter (applyEffect e .original N) ts k) (ts k)).2 = _
    rw [actionAfter_wrapper_original, h0]
    simp [invokeAction]

/-- Witness for C4 at a concrete effect, duration, time sequence and
invocation indices. -/
theorem c4_effect_duration_witness :
    (actionAfter (applyEffect .stun .original 2) (fun _ => 0) 1 =
        .wrapper .stun 1 .original ∧
      ranAt (applyEffect .stun .original 2) (fun _ => 0) 1 = .effected .stun) ∧
    (actionAfter (applyEffect .stun .original 2) (fun _ => 0) 5 =
        .wrapper .stun 0 .original ∧
      ranAt (applyEffect .stun .original 2) (fun _ => 0) 5 = .direct) :=
  ⟨(c4_effect_duration .stun 2 (fun _ => 0) 1).1 (by decide),
   (c4_effect_duration .stun 2 (fun _ => 0) 5).2 (by decide)⟩

/-- C9: a BodyguardAnt whose slot is empty fails when its action runs
(the contained ant is dereferenced), rather than acting as a no-op; with
a sheltered unit present the action is exactly the sheltered unit's
action. -/
theorem c9_empty_bodyguard_action_fails (choose : List Nat → Option Nat)
    (st : GameState) (a : Nat) (ins : Insect)
    (hins : st.insect? a = some ins) (hkind : ins.kind = .bodyguard) :
    (ins.ant = none → antAction choose st a = none) ∧
    (∀ c fuel, ins.ant = some c →
      antActionFuel choose (fuel + 1) st a = antActionFuel choose fuel st c) := by
  constructor
  · intro hant
    show antActionFuel choose (st.insects.length + 1) st a = none
    simp [antActionFuel, hins, hkind, hant]
  · intro c fuel hant
    simp [antActionFuel, hins, hkind, hant]

/-- Witness for C9: a concrete empty bodyguard at a place. -/
theorem c9_empty_bodyguard_action_fails_witness :
    antAction List.head? c9St 0 = none :=
  (c9_empty_bodyguard_action_fails List.head? c9St 0
    { kind := .bodyguard, armor := 2, place := some 0, damage := 0,
      ant := none, trueQueen := false, digesting := 0, doubleDmgAnts := [] }
    rfl rfl).1 rfl

/-- C3 counterexample: in the scheduled scenario (one 3-armor attacker
at turn 2 against a single 1-damage 1-armor thrower with range covering
the whole tunnel and ample food) the simulation does end WON with turn
counter 5, but the attacker's action was invoked only 4 times, so the
turn counter at the moment of WON does not equal the count of attacker
actions taken. -/
theorem c3_counterexample :
    (runSim List.head? c3Plan c3Strategy 10 c3Init).map
        (fun r => (r.1, r.2.time, r.2.beeActionCount)) = some (.won, 5, 4) ∧
      (5 : Nat) ≠ 4 :=
  ⟨by decide, by decide⟩

/-- C3 (amended): the scenario ends WON with turn counter 5, and the
attacker's action was invoked 4 times — the attacker acts on turns 0..3
(its idle turns inside the Hive included) and is destroyed during the
defender phase of turn 4 before acting, so the turn counter at the
moment of WON exceeds the count of attacker actions by exactly one. -/
theorem c3_amended_won_by_five :
    (runSim List.head? c3Plan c3Strategy 10 c3Init).map
        (fun r => (r.1, r.2.time, r.2.beeActionCount)) = some (.won, 5, 4) ∧
      (5 : Nat) = 4 + 1 :=
  ⟨by decide, rfl⟩

/-- C2 counterexample: the thrower's damage starts at 1, the queen's
walk doubles it once, and after a fresh bodyguard is placed over the
already-doubled thrower the next walk doubles it again — damage 4, a
quadrupling of the original. -/
theorem c2_counterexample :
    (c2St.insect? 1).map Insect.damage = some 1 ∧
      c2Run = some 4 ∧ ¬((4 : Int) ≤ 1 * 2) :=
  ⟨by decide, by decide, by decide⟩

/-- C1 counterexample: the true queen at place 0 with armor 1; reducing
her armor to 0 leaves her location reference set and leaves her in her
place's occupant slot — she is not removed and not nulled. -/
theorem c1_counterexample :
    ((reduceArmor c2St 0 5).bind fun st1 => (st1.insect? 0).map Insect.place) =
        some (some 0) ∧
      ((reduceArmor c2St 0 5).bind fun st1 => (st1.place? 0).map Place.ant) =
        some (some 0) :=
  ⟨by decide, by decide⟩

/-- C7: the resource budget never goes negative.  With food below the
requested unit's cost, deployment reports the shortage and changes
nothing (total rejection); otherwise it performs the add-occupant
operation on a freshly constructed unit and deducts exactly the cost;
and from a nonnegative budget every deployment outcome leaves the budget
nonnegative. -/
theorem c7_deploy_budget (st : GameState) (pid : Nat) (kind : InsectKind) :
    (st.food < kind.foodCost → deployAnt st pid kind = some (st, false)) ∧
    (kind.foodCost ≤ st.food →
      ∀ r, deployAnt st pid kind = some r →
        r.2 = true ∧ r.1.food = st.food - kind.foodCost ∧
        ∃ st2, placeAddInsect (mkInsect st kind).1 pid (mkInsect st kind).2 = some st2 ∧
          r.1 = { st2 with food := st2.food - kind.foodCost }) ∧
    (0 ≤ st.food → ∀ r, deployAnt st pid kind = some r → 0 ≤ r.1.food) := by
  refine ⟨fun hlt => ?_, fun hge r hr => ?_, fun hpos r hr => ?_⟩
  · simp [deployAnt, hlt]
  · rw [deployAnt, if_neg (by omega)] at hr
    simp only [Option.bind_eq_bind, Option.bind_eq_some] at hr
    obtain ⟨st2, hadd, hr⟩ := hr
    injection hr with hr1
    subst hr1
    have hfood : st2.food = st.food := by
      have hfr := (placeAddInsect_frame hadd).1
      simpa [mkInsect] using hfr
    exact ⟨rfl, by simp [hfood], st2, hadd, rfl⟩
  · by_cases hlt : st.food < kind.foodCost
    · rw [deployAnt, if_pos hlt] at hr
      injection hr with hr1
      subst hr1
      exact hpos
    · rw [deployAnt, if_neg hlt] at hr
      simp only [Option.bind_eq_bind, Option.bind_eq_some] at hr
      obtain ⟨st2, hadd, hr⟩ := hr
      injection hr with hr1
      subst hr1
      have hfood : st2.food = st.food := by
        have hfr := (placeAddInsect_frame hadd).1
        simpa [mkInsect] using hfr
      simp only [hfood]
      omega

/-- Witness for C7: rejection on an empty budget leaves the state
untouched; with ample food the deployment places the ant and deducts
exactly the cost. -/
theorem c7_deploy_budget_witness :
    deployAnt c7Poor 0 .thrower = some (c7Poor, false) ∧
      (c7RichRes.2 = true ∧
        c7RichRes.1.food = c7Rich.food - InsectKind.foodCost .thrower) :=
  ⟨(c7_deploy_budget c7Poor 0 .thrower).1 (by decide),
   let h := (c7_deploy_budget c7Rich 0 .thrower).2.1 (by decide) c7RichRes (by decide)
   ⟨h.1, h.2.1⟩⟩

/-- C5: adding a fresh shelter-capable defender where a plain
(non-container) defender stands absorbs the plain defender into the
shelter's slot and leaves the shelter as the sole visible occupant,
the plain defender's record untouched and retrievable; removing the
shelter afterwards restores the plain defender as the visible occupant
of the same location, re-pointing it there and nulling the shelter's
location reference. -/
theorem c5_containment_roundtrip (st : GameState) (pid A B : Nat) (p : Place)
    (aIns bIns : Insect)
    (hp : st.place? pid = some p) (hpa : p.ant = some A)
    (hA : st.insect? A = some aIns) (hAisAnt : aIns.kind.isAnt = true)
    (hAnc : aIns.kind.container = false)
    (hB : st.insect? B = some bIns) (hBk : bIns.kind = .bodyguard)
    (hBant : bIns.ant = none) (hAB : A ≠ B) :
    ∃ st1, addInsect st pid B = some st1 ∧
      (st1.place? pid).map Place.ant = some (some B) ∧
      (st1.insect? B).bind Insect.ant = some A ∧
      st1.insect? A = some aIns ∧
      ∃ st2, removeInsect st1 pid B = some st2 ∧
        (st2.place? pid).map Place.ant = some (some A) ∧
        (st2.insect? A).bind Insect.place = some pid ∧
        (st2.insect? B).bind Insect.place = none ∧
        (st2.insect? B).isSome = true := by
  have hpidLt : pid < st.places.length := lt_of_place?_eq_some hp
  have hBLt : B < st.insects.length := lt_of_insect?_eq_some hB
  have hALt : A < st.insects.length := lt_of_insect?_eq_some hA
  have hBA : B ≠ A := fun h => hAB h.symm
  have hBisAnt : bIns.kind.isAnt = true := by rw [hBk]; rfl
  have hBcont : bIns.kind.container = true := by rw [hBk]; rfl
  have hcc1 : canContain aIns bIns = false := by
    simp [canContain, hAnc]
  have hcc2 : canContain bIns aIns = true := by
    simp [canContain, hBcont, hBant, hAnc]
  -- The state after absorbing the plain defender into the shelter.
  have hadd : addInsect st pid B =
      some ((st.setInsect B { bIns with ant := some A, place := some pid }).setPlace pid
        { p with ant := some B }) := by
    simp [addInsect, hp, hB, hpa, hA, hcc1, hcc2, hBisAnt]
  refine ⟨_, hadd, ?_, ?_, ?_, ?_⟩
  · rw [place?_setPlace_self _ _ _ (by simpa [GameState.setInsect] using hpidLt)]
    rfl
  · show ((st.setInsect B { bIns with ant := some A, place := some pid }).insect? B).bind
      Insect.ant = some A
    rw [insect?_setInsect_self _ _ _ hBLt]
    rfl
  · show (st.setInsect B { bIns with ant := some A, place := some pid }).insect? A = _
    rw [insect?_setInsect_ne _ _ hBA]
    exact hA
  · -- Removing the shelter promotes the sheltered defender.
    have hp1 : ((st.setInsect B { bIns with ant := some A, place := some pid }).setPlace pid
        { p with ant := some B }).place? pid = some { p with ant := some B } :=
      place?_setPlace_self _ _ _ (by simpa [GameState.setInsect] using hpidLt)
    have hB1 : ((st.setInsect B { bIns with ant := some A, place := some pid }).setPlace pid
        { p with ant := some B }).insect? B =
        some { bIns with ant := some A, place := some pid } := by
      show (st.setInsect B { bIns with ant := some A, place := some pid }).insect? B = _
      exact insect?_setInsect_self _ _ _ hBLt
    have hA1 : ((st.setInsect B { bIns with ant := some A, place := some pid }).setPlace pid
        { p with ant := some B }).insect? A = some aIns := by
      show (st.setInsect B { bIns with ant := some A, place := some pid }).insect? A = _
      rw [insect?_setInsect_ne _ _ hBA]
      exact hA
    have hrem : removeInsect ((st.setInsect B
        { bIns with ant := some A, place := some pid }).setPlace pid
        { p with ant := some B }) pid B =
        some (((((st.setInsect B { bIns with ant := some A, place := some pid }).setPlace pid
            { p with ant := some B }).setPlace pid
            { { p with ant := some B } with ant := some A }).setInsect A
            { aIns with place := some pid }).setInsect B
            { { bIns with ant := some A, place := some pid } with place := none }) := by
      simp [removeInsect, hp1, hB1, hA1, hBisAnt, hBcont]
    refine ⟨_, hrem, ?_, ?_, ?_, ?_⟩
    · rw [place?_setInsect, place?_setInsect,
        place?_setPlace_self _ _ _ (by simpa [GameState.setPlace, GameState.setInsect] using hpidLt)]
      rfl
    · rw [insect?_setInsect_ne _ _ hBA,
        insect?_setInsect_self _ _ _ (by simpa [GameState.setPlace, GameState.setInsect] using hALt)]
      rfl
    · rw [insect?_setInsect_self _ _ _
        (by simpa [GameState.setPlace, GameState.setInsect] using hBLt)]
      rfl
    · rw [insect?_setInsect_self _ _ _
        (by simpa [GameState.setPlace, GameState.setInsect] using hBLt)]
      rfl

/-- The head chooser is a valid resolution of random choice. -/
theorem validChooser_head : ValidChooser List.head? := by
  intro l
  cases l with
  | nil => simp [ValidChooser]
  | cons a t => simp [ValidChooser]

/-- The scan of nearest_bee agrees with the spec scan: it returns
exactly a chosen bee of the first in-range location. -/
theorem nearestBeeGo_eq_spec (choose : List Nat → Option Nat) (hch : ValidChooser choose)
    (st : GameState) (hive minR maxR : Nat) :
    ∀ fuel start dist, nearestBeeGo choose st hive minR maxR fuel start dist =
      (specFirstInRange st hive minR maxR fuel start dist).bind
        (fun pd => choose (st.beesAt pd.1)) := by
  intro fuel
  induction fuel with
  | zero =>
    intro start dist
    cases start <;> simp [nearestBeeGo, specFirstInRange]
  | succ n ih =>
    intro start dist
    cases start with
    | none => simp [nearestBeeGo, specFirstInRange]
    | some pid =>
      by_cases hh : pid = hive
      · simp [nearestBeeGo, specFirstInRange, hh]
      rcases hp : st.place? pid with _ | p
      · simp [nearestBeeGo, specFirstInRange, hh, hp]
      rcases hc : choose p.bees with _ | bee
      · have hempty : p.bees = [] := by
          have hv := hch p.bees
          rwa [hc] at hv
        have hcond : ¬(p.bees ≠ [] ∧ minR ≤ dist ∧ dist ≤ maxR) := fun hx => hx.1 hempty
        simp [nearestBeeGo, specFirstInRange, hh, hp, hc, hcond, ih]
      · have hne : ¬p.bees = [] := by
          have hv := hch p.bees
          rw [hc] at hv
          intro he
          rw [he] at hv
          exact absurd hv (List.not_mem_nil bee)
        by_cases hr : minR ≤ dist ∧ dist ≤ maxR
        · simp [nearestBeeGo, specFirstInRange, hh, hp, hc, hne, hr, GameState.beesAt]
        · simp [nearestBeeGo, specFirstInRange, hh, hp, hc, hne, hr, ih]

/-- A location produced by the spec scan is within range, non-empty and
not the terminus. -/
theorem specFirstInRange_sound (st : GameState) (hive minR maxR : Nat) :
    ∀ fuel start dist p d,
      specFirstInRange st hive minR maxR fuel start dist = some (p, d) →
      minR ≤ d ∧ d ≤ maxR ∧ st.beesAt p ≠ [] ∧ p ≠ hive := by
  intro fuel
  induction fuel with
  | zero =>
    intro start dist p d h
    cases start <;> simp [specFirstInRange] at h
  | succ n ih =>
    intro start dist p d h
    cases start with
    | none => simp [specFirstInRange] at h
    | some pid =>
      by_cases hh : pid = hive
      · simp [specFirstInRange, hh] at h
      rcases hp : st.place? pid with _ | pl
      · simp [specFirstInRange, hh, hp] at h
      by_cases hr : pl.bees ≠ [] ∧ minR ≤ dist ∧ dist ≤ maxR
      · rw [specFirstInRange] at h
        rw [if_neg hh, hp] at h
        simp only [if_pos hr] at h
        injection h with h1
        injection h1 with he1 he2
        subst he1
        subst he2
        exact ⟨hr.2.1, hr.2.2, by simpa [GameState.beesAt, hp] using hr.1, hh⟩
      · rw [specFirstInRange] at h
        rw [if_neg hh, hp] at h
        simp only [if_neg hr] at h
        exact ih _ _ _ _ h

/-- C6: ranged targeting.  For any faithful model of uniform random
choice, nearest_bee scans from the defender's own location along
entrance links with cumulative distance starting at 0, and returns
exactly a chosen attacker of the first visited non-terminus location
holding at least one attacker at distance within the inclusive
[min, max] range (none when the terminus is reached without one); a
returned target is an attacker present at that location; throwing at no
target is a no-op and throwing at a target reduces its armor by the
thrower's damage. -/
theorem c6_ranged_targeting (choose : List Nat → Option Nat) (hch : ValidChooser choose) :
    (∀ st hive minR maxR fuel start dist,
      nearestBeeGo choose st hive minR maxR fuel start dist =
        (specFirstInRange st hive minR maxR fuel start dist).bind
          (fun pd => choose (st.beesAt pd.1))) ∧
    (∀ st hive minR maxR fuel start dist p d,
      specFirstInRange st hive minR maxR fuel start dist = some (p, d) →
      minR ≤ d ∧ d ≤ maxR ∧ st.beesAt p ≠ [] ∧ p ≠ hive) ∧
    (∀ st hive minR maxR fuel start dist b,
      nearestBeeGo choose st hive minR maxR fuel start dist = some b →
      ∃ p d, specFirstInRange st hive minR maxR fuel start dist = some (p, d) ∧
        b ∈ st.beesAt p) ∧
    (∀ st a, throwAt st a none = some st) ∧
    (∀ st a b ins, st.insect? a = some ins →
      throwAt st a (some b) = reduceArmor st b ins.damage) := by
  refine ⟨fun st hive minR maxR fuel start dist =>
      nearestBeeGo_eq_spec choose hch st hive minR maxR fuel start dist,
    fun st hive minR maxR fuel start dist p d h =>
      specFirstInRange_sound st hive minR maxR fuel start dist p d h,
    fun st hive minR maxR fuel start dist b h => ?_,
    fun st a => rfl,
    fun st a b ins hins => ?_⟩
  · rw [nearestBeeGo_eq_spec choose hch] at h
    rcases hs : specFirstInRange st hive minR maxR fuel start dist with _ | ⟨p1, d1⟩
    · rw [hs] at h
      exact Option.noConfusion h
    · rw [hs] at h
      refine ⟨p1, d1, rfl, ?_⟩
      have hv := hch (st.beesAt p1)
      simp only [Option.some_bind] at h
      rw [h] at hv
      exact hv
  · simp [throwAt, hins]

/-- Witness for C6 with the head chooser at the concrete chain: the scan
finds the bee at distance 1. -/
theorem c6_ranged_targeting_witness :
    nearestBeeGo List.head? c6St 2 0 10 5 (some 0) 0 =
      (specFirstInRange c6St 2 0 10 5 (some 0) 0).bind
        (fun pd => List.head? (c6St.beesAt pd.1)) ∧
    nearestBeeGo List.head? c6St 2 0 10 5 (some 0) 0 = some 7 :=
  ⟨(c6_ranged_targeting List.head? validChooser_head).1 c6St 2 0 10 5 (some 0) 0,
   by decide⟩

/-- Successful removal of a consistently and visibly placed insect
clears every reference to it (and, for a container, promotes its
distinct contained ant instead). -/
theorem removeInsect_removes {st0 : GameState} {pid iid : Nat} {ins0 : Insect} {p0 : Place}
    (hp : st0.place? pid = some p0)
    (hins : st0.insect? iid = some ins0)
    (hvisAnt : ins0.kind.isAnt = true → p0.ant = some iid)
    (hvisBee : ins0.kind.isAnt = false → iid ∈ p0.bees)
    (hnotq : ¬(ins0.kind = .queen ∧ ins0.trueQueen = true))
    (hcont : ins0.kind.container = true →
      ∃ c cIns, ins0.ant = some c ∧ c ≠ iid ∧ st0.insect? c = some cIns)
    (hnodup : p0.bees.Nodup)
    (hslotbee : ins0.kind.isAnt = true → iid ∉ p0.bees)
    (hbeeslot : ins0.kind.isAnt = false → p0.ant ≠ some iid)
    (hOther : ∀ q pq, st0.place? q = some pq → q ≠ pid → pq.ant ≠ some iid ∧ iid ∉ pq.bees) :
    ∃ st', removeInsect st0 pid iid = some st' ∧
      (st'.insect? iid).map Insect.place = some none ∧
      (st'.insect? iid).map Insect.armor = some ins0.armor ∧
      ∀ q pq', st'.place? q = some pq' → pq'.ant ≠ some iid ∧ iid ∉ pq'.bees := by
  have hpidLt : pid < st0.places.length := lt_of_place?_eq_some hp
  have hiidLt : iid < st0.insects.length := lt_of_insect?_eq_some hins
  by_cases hAnt : ins0.kind.isAnt = true
  · have hslot := hvisAnt hAnt
    by_cases hCont : ins0.kind.container = true
    · obtain ⟨c, cIns, hc, hcne, hcIns⟩ := hcont hCont
      have hrem : removeInsect st0 pid iid =
          some ((((st0.setPlace pid { p0 with ant := some c }).setInsect c
            { cIns with place := some pid })).setInsect iid { ins0 with place := none }) := by
        simp [removeInsect, hp, hins, hAnt, hslot, hCont, hc, hcIns]
      refine ⟨_, hrem, ?_, ?_, ?_⟩
      · rw [insect?_setInsect_self _ _ _
          (by simpa [GameState.setInsect, GameState.setPlace] using hiidLt)]
        rfl
      · rw [insect?_setInsect_self _ _ _
          (by simpa [GameState.setInsect, GameState.setPlace] using hiidLt)]
        rfl
      · intro q pq' hq
        rw [place?_setInsect, place?_setInsect] at hq
        by_cases hqp : pid = q
        · subst hqp
          rw [place?_setPlace_self _ _ _ hpidLt] at hq
          injection hq with hq1
          subst hq1
          exact ⟨by simp [hcne], hslotbee hAnt⟩
        · rw [place?_setPlace_ne _ _ hqp] at hq
          exact hOther q pq' hq (fun he => hqp he.symm)
    · have hq2 : (ins0.kind = .queen && ins0.trueQueen) = false := by
        by_cases hk : ins0.kind = .queen
        · have : ins0.trueQueen = false := by
            by_cases ht : ins0.trueQueen = true
            · exact absurd ⟨hk, ht⟩ hnotq
            · exact Bool.not_eq_true _ |>.mp ht
          simp [hk, this]
        · simp [hk]
      have hrem : removeInsect st0 pid iid =
          some ((st0.setPlace pid { p0 with ant := none }).setInsect iid
            { ins0 with place := none }) := by
        simp only [removeInsect, Option.bind_eq_bind, hp, Option.some_bind, hins]
        rw [if_pos hAnt, if_pos hslot, if_neg (by simp [hCont]), if_neg (by simp_all)]
      refine ⟨_, hrem, ?_, ?_, ?_⟩
      · rw [insect?_setInsect_self _ _ _
          (by simpa [GameState.setInsect, GameState.setPlace] using hiidLt)]
        rfl
      · rw [insect?_setInsect_self _ _ _
          (by simpa [GameState.setInsect, GameState.setPlace] using hiidLt)]
        rfl
      · intro q pq' hq
        rw [place?_setInsect] at hq
        by_cases hqp : pid = q
        · subst hqp
          rw [place?_setPlace_self _ _ _ hpidLt] at hq
          injection hq with hq1
          subst hq1
          exact ⟨by simp, hslotbee hAnt⟩
        · rw [place?_setPlace_ne _ _ hqp] at hq
          exact hOther q pq' hq (fun he => hqp he.symm)
  · have hAntF : ins0.kind.isAnt = false := by
      by_cases hx : ins0.kind.isAnt = true
      · exact absurd hx hAnt
      · exact Bool.not_eq_true _ |>.mp hx
    have hmem := hvisBee hAntF
    have hrem : removeInsect st0 pid iid =
        some ((st0.setPlace pid { p0 with bees := p0.bees.erase iid }).setInsect iid
          { ins0 with place := none }) := by
      simp only [removeInsect, Option.bind_eq_bind, hp, Option.some_bind, hins]
      rw [if_neg (by simp [hAntF]), if_pos hmem]
    refine ⟨_, hrem, ?_, ?_, ?_⟩
    · rw [insect?_setInsect_self _ _ _
        (by simpa [GameState.setInsect, GameState.setPlace] using hiidLt)]
      rfl
    · rw [insect?_setInsect_self _ _ _
        (by simpa [GameState.setInsect, GameState.setPlace] using hiidLt)]
      rfl
    · intro q pq' hq
      rw [place?_setInsect] at hq
      by_cases hqp : pid = q
      · subst hqp
        rw [place?_setPlace_self _ _ _ hpidLt] at hq
        injection hq with hq1
        subst hq1
        exact ⟨hbeeslot hAntF, hnodup.not_mem_erase⟩
      · rw [place?_setPlace_ne _ _ hqp] at hq
        exact hOther q pq' hq (fun he => hqp he.symm)

/-- FireAnt's detonation loop: damaging every snapshotted bee succeeds
on distinct consistently placed bees, preserves every place's slot,
links and tags, only shrinks bee lists, and leaves every ant record
untouched. -/
theorem foldKillBees (dmg : Int) :
    ∀ (l : List Nat) (st0 : GameState), l.Nodup → (∀ b ∈ l, BeePlaced st0 b) →
      ∃ st2, l.foldlM (fun s b => insectReduceArmor s b dmg) st0 = some st2 ∧
        (∀ q pq, st0.place? q = some pq → ∃ pq', st2.place? q = some pq' ∧
          pq'.ant = pq.ant ∧ pq'.exit = pq.exit ∧ pq'.entrance = pq.entrance ∧
          pq'.isWater = pq.isWater ∧ pq'.isHive = pq.isHive ∧ pq'.bees.Sublist pq.bees) ∧
        (∀ i insI, st0.insect? i = some insI → insI.kind.isAnt = true →
          st2.insect? i = some insI) := by
  intro l
  induction l with
  | nil =>
    intro st0 hnd hpl
    refine ⟨st0, by simp, fun q pq hq => ⟨pq, hq, rfl, rfl, rfl, rfl, rfl, List.Sublist.refl _⟩,
      fun i insI hi _ => hi⟩
  | cons b t ih =>
    intro st0 hnd hpl
    obtain ⟨insB, pb, pB, hinsB, hBee, hplB, hpB, hmemB, hndB⟩ := hpl b (by simp)
    have hbLt : b < st0.insects.length := lt_of_insect?_eq_some hinsB
    have hpbLt : pb < st0.places.length := lt_of_place?_eq_some hpB
    have hndT : t.Nodup := hnd.of_cons
    have hbT : b ∉ t := by
      have := List.nodup_cons.mp hnd
      exact this.1
    -- One step of the fold.
    by_cases harm : insB.armor - dmg ≤ 0
    · -- The bee dies and is removed from its place.
      have hstep : insectReduceArmor st0 b dmg =
          some (((st0.setInsect b { insB with armor := insB.armor - dmg }).setPlace pb
            { pB with bees := pB.bees.erase b }).setInsect b
            { insB with armor := insB.armor - dmg, place := none }) := by
        simp only [insectReduceArmor, Option.bind_eq_bind, hinsB, Option.some_bind]
        rw [if_pos (by simpa using harm)]
        simp only [hplB, Option.some_bind]
        simp only [removeInsect, Option.bind_eq_bind, place?_setInsect, hpB, Option.some_bind,
          insect?_setInsect_self _ _ _ hbLt]
        rw [if_neg (by simp [hBee]), if_pos hmemB]
      set st1 : GameState := ((st0.setInsect b { insB with armor := insB.armor - dmg }).setPlace pb
        { pB with bees := pB.bees.erase b }).setInsect b
        { insB with armor := insB.armor - dmg, place := none } with hst1
      have hplace1 : ∀ q pq, st0.place? q = some pq → ∃ pq', st1.place? q = some pq' ∧
          pq'.ant = pq.ant ∧ pq'.exit = pq.exit ∧ pq'.entrance = pq.entrance ∧
          pq'.isWater = pq.isWater ∧ pq'.isHive = pq.isHive ∧ pq'.bees.Sublist pq.bees := by
        intro q pq hq
        rw [hst1]
        by_cases hqp : pb = q
        · subst hqp
          rw [hq] at hpB
          injection hpB with he
          subst he
          refine ⟨{ pq with bees := pq.bees.erase b }, ?_, rfl, rfl, rfl, rfl, rfl,
            List.erase_sublist ..⟩
          rw [place?_setInsect, place?_setPlace_self _ _ _
            (by simpa [GameState.setInsect] using hpbLt)]
        · refine ⟨pq, ?_, rfl, rfl, rfl, rfl, rfl, List.Sublist.refl _⟩
          rw [place?_setInsect, place?_setPlace_ne _ _ hqp, place?_setInsect]
          exact hq
      have hants1 : ∀ i insI, st0.insect? i = some insI → insI.kind.isAnt = true →
          st1.insect? i = some insI := by
        intro i insI hi hAi
        have hbi : b ≠ i := by
          intro he
          subst he
          rw [hi] at hinsB
          injection hinsB with he2
          subst he2
          rw [hAi] at hBee
          exact Bool.noConfusion hBee
        rw [hst1, insect?_setInsect_ne _ _ hbi, insect?_setPlace, insect?_setInsect_ne _ _ hbi]
        exact hi
      have hplT : ∀ x ∈ t, BeePlaced st1 x := by
        intro x hx
        obtain ⟨insX, px, pX, hinsX, hXbee, hplX, hpX, hmemX, hndX⟩ := hpl x (by simp [hx])
        have hbx : b ≠ x := fun he => hbT (he ▸ hx)
        refine ⟨insX, px, ?_⟩
        rw [hst1]
        by_cases hpxb : pb = px
        · subst hpxb
          rw [hpX] at hpB
          injection hpB with he
          subst he
          refine ⟨{ pX with bees := pX.bees.erase b }, ?_, hXbee, hplX, ?_, ?_, ?_⟩
          · rw [insect?_setInsect_ne _ _ hbx, insect?_setPlace, insect?_setInsect_ne _ _ hbx]
            exact hinsX
          · rw [place?_setInsect, place?_setPlace_self _ _ _
              (by simpa [GameState.setInsect] using hpbLt)]
          · exact (List.mem_erase_of_ne (fun he => hbx he.symm)).mpr hmemX
          · exact hndX.erase b
        · refine ⟨pX, ?_, hXbee, hplX, ?_, hmemX, hndX⟩
          · rw [insect?_setInsect_ne _ _ hbx, insect?_setPlace, insect?_setInsect_ne _ _ hbx]
            exact hinsX
          · rw [place?_setInsect, place?_setPlace_ne _ _ hpxb, place?_setInsect]
            exact hpX
      obtain ⟨st2, hfold, hplace2, hants2⟩ := ih st1 hndT hplT
      refine ⟨st2, ?_, ?_, ?_⟩
      · simp only [List.foldlM_cons, hstep, Option.some_bind]
        exact hfold
      · intro q pq hq
        obtain ⟨pq1, hq1, ha1, he1, hen1, hw1, hh1, hs1⟩ := hplace1 q pq hq
        obtain ⟨pq2, hq2, ha2, he2, hen2, hw2, hh2, hs2⟩ := hplace2 q pq1 hq1
        exact ⟨pq2, hq2, ha2.trans ha1, he2.trans he1, hen2.trans hen1, hw2.trans hw1,
          hh2.trans hh1, hs2.trans hs1⟩
      · intro i insI hi hAi
        exact hants2 i insI (hants1 i insI hi hAi) hAi
    · -- The bee survives with reduced armor.
      have hstep : insectReduceArmor st0 b dmg =
          some (st0.setInsect b { insB with armor := insB.armor - dmg }) := by
        simp only [insectReduceArmor, Option.bind_eq_bind, hinsB, Option.some_bind]
        rw [if_neg (by simpa using harm)]
      set st1 : GameState := st0.setInsect b { insB with armor := insB.armor - dmg } with hst1
      have hplT : ∀ x ∈ t, BeePlaced st1 x := by
        intro x hx
        obtain ⟨insX, px, pX, hinsX, hXbee, hplX, hpX, hmemX, hndX⟩ := hpl x (by simp [hx])
        have hbx : b ≠ x := fun he => hbT (he ▸ hx)
        exact ⟨insX, px, pX, by rw [hst1, insect?_setInsect_ne _ _ hbx]; exact hinsX,
          hXbee, hplX, hpX, hmemX, hndX⟩
      have hants1 : ∀ i insI, st0.insect? i = some insI → insI.kind.isAnt = true →
          st1.insect? i = some insI := by
        intro i insI hi hAi
        have hbi : b ≠ i := by
          intro he
          subst he
          rw [hi] at hinsB
          injection hinsB with he2
          subst he2
          rw [hAi] at hBee
          exact Bool.noConfusion hBee
        rw [hst1, insect?_setInsect_ne _ _ hbi]
        exact hi
      obtain ⟨st2, hfold, hplace2, hants2⟩ := ih st1 hndT hplT
      refine ⟨st2, ?_, ?_, ?_⟩
      · simp only [List.foldlM_cons, hstep, Option.some_bind]
        exact hfold
      · intro q pq hq
        have hq1 : st1.place? q = some pq := by
          rw [hst1, place?_setInsect]
          exact hq
        exact hplace2 q pq hq1
      · intro i insI hi hAi
        exact hants2 i insI (hants1 i insI hi hAi) hAi

/-- Under the placement invariant, an insect placed at a location is
referenced nowhere else. -/
theorem inv_only_here {st : GameState} (hInv : Inv st = true) {iid pid : Nat} {ins : Insect}
    (hins : st.insect? iid = some ins) (hpl : ins.place = some pid) :
    ∀ q pq, st.place? q = some pq → q ≠ pid → pq.ant ≠ some iid ∧ iid ∉ pq.bees := by
  intro q pq hq hne
  have spec := placeOk_spec (inv_placeOk hInv q) hq
  constructor
  · intro ha
    obtain ⟨ins', hins', _, hpl'⟩ := spec.2.2 iid ha
    rw [hins] at hins'
    injection hins' with he
    subst he
    rw [hpl] at hpl'
    injection hpl' with he2
    exact hne he2.symm
  · intro hb
    obtain ⟨ins', hins', _, hpl', _⟩ := spec.2.1 iid hb
    rw [hins] at hins'
    injection hins' with he
    subst he
    rw [hpl] at hpl'
    injection hpl' with he2
    exact hne he2.symm

/-- The workhorse for the destruction claims: under the placement
invariant, reducing the armor of a visibly placed insect (other than the
true queen, and — for a shelter — holding a distinct sheltered unit) to
zero or below succeeds, sets its armor to the reduced value, nulls its
place reference, and leaves no slot or bee list holding it. -/
theorem reduceArmor_removes {st : GameState} {iid pid : Nat} {ins : Insect} (amount : Int)
    (hInv : Inv st = true)
    (hins : st.insect? iid = some ins)
    (hpl : ins.place = some pid)
    (hvisAnt : ins.kind.isAnt = true → (st.place? pid).bind Place.ant = some iid)
    (hvisBee : ins.kind.isAnt = false → iid ∈ st.beesAt pid)
    (hnotq : ¬(ins.kind = .queen ∧ ins.trueQueen = true))
    (hcont : ins.kind.container = true →
      ∃ c cIns, ins.ant = some c ∧ c ≠ iid ∧ st.insect? c = some cIns)
    (hkill : ins.armor - amount ≤ 0) :
    ∃ st', reduceArmor st iid amount = some st' ∧
      (st'.insect? iid).map Insect.place = some none ∧
      (st'.insect? iid).map Insect.armor = some (ins.armor - amount) ∧
      ∀ q pq', st'.place? q = some pq' → pq'.ant ≠ some iid ∧ iid ∉ pq'.bees := by
  have hiidLt : iid < st.insects.length := lt_of_insect?_eq_some hins
  -- The place of the insect exists.
  obtain ⟨p, hp⟩ : ∃ p, st.place? pid = some p := by
    by_cases hAnt : ins.kind.isAnt = true
    · have hv := hvisAnt hAnt
      rcases hx : st.place? pid with _ | p
      · rw [hx] at hv
        exact Option.noConfusion hv
      · exact ⟨p, rfl⟩
    · have hv := hvisBee (by simpa using hAnt)
      rcases hx : st.place? pid with _ | p
      · rw [GameState.beesAt, hx] at hv
        exact absurd hv (List.not_mem_nil iid)
      · exact ⟨p, rfl⟩
  have spec := placeOk_spec (inv_placeOk hInv pid) hp
  have hvisAntP : ins.kind.isAnt = true → p.ant = some iid := by
    intro hAnt
    have hv := hvisAnt hAnt
    rw [hp] at hv
    exact hv
  have hvisBeeP : ins.kind.isAnt = false → iid ∈ p.bees := by
    intro hAnt
    have hv := hvisBee hAnt
    rwa [GameState.beesAt, hp] at hv
  have hslotbee : ins.kind.isAnt = true → iid ∉ p.bees := by
    intro hAnt hmem
    obtain ⟨ins', hins', hbee', _, _⟩ := spec.2.1 iid hmem
    rw [hins] at hins'
    injection hins' with he
    subst he
    rw [hAnt] at hbee'
    exact Bool.noConfusion hbee'
  have hbeeslot : ins.kind.isAnt = false → p.ant ≠ some iid := by
    intro hAnt ha
    obtain ⟨ins', hins', hant', _⟩ := spec.2.2 iid ha
    rw [hins] at hins'
    injection hins' with he
    subst he
    rw [hant'] at hAnt
    exact Bool.noConfusion hAnt
  have hOther := inv_only_here hInv hins hpl
  by_cases hkf : ins.kind = .fire
  · -- FireAnt: detonation, then removal through the promoted state.
    have hAnt : ins.kind.isAnt = true := by rw [hkf]; rfl
    have hslot := hvisAntP hAnt
    set ins1 : Insect := { ins with armor := ins.armor - amount } with hins1
    set st1 : GameState := st.setInsect iid ins1 with hst1
    have hins1look : st1.insect? iid = some ins1 := insect?_setInsect_self _ _ _ hiidLt
    have hp1 : st1.place? pid = some p := hp
    have hplT : ∀ b ∈ p.bees, BeePlaced st1 b := by
      intro b hb
      obtain ⟨insB, hinsB, hBbee, hBpl, hBarm⟩ := spec.2.1 b hb
      have hbi : iid ≠ b := by
        intro he
        subst he
        rw [hins] at hinsB
        injection hinsB with he2
        subst he2
        rw [hAnt] at hBbee
        exact Bool.noConfusion hBbee
      exact ⟨insB, pid, p, by rw [hst1, insect?_setInsect_ne _ _ hbi]; exact hinsB,
        hBbee, hBpl, hp1, hb, spec.1⟩
    obtain ⟨st2, hfold, hplace2, hants2⟩ := foldKillBees ins1.damage p.bees st1 spec.1 hplT
    have hlen2 : st2.places.length = st.places.length := by
      have := foldlM_frame (fun s b s' hs => insectReduceArmor_frame hs) _ _ _ hfold
      rw [this.2.2.2.2.2.2.2.1]
      rfl
    have hiid2 : st2.insect? iid = some ins1 := hants2 iid ins1 hins1look hAnt
    obtain ⟨p2, hp2, hp2ant, _, _, _, _, hp2sub⟩ := hplace2 pid p hp1
    have hOther2 : ∀ q pq, st2.place? q = some pq → q ≠ pid →
        pq.ant ≠ some iid ∧ iid ∉ pq.bees := by
      intro q pq hq hne
      have hqLt : q < st.places.length := by
        have := lt_of_place?_eq_some hq
        omega
      obtain ⟨pq0, hq0⟩ : ∃ pq0, st.place? q = some pq0 := by
        rcases hx : st.place? q with _ | pq0
        · rw [GameState.place?] at hx
          rw [List.getElem?_eq_none_iff] at hx
          omega
        · exact ⟨pq0, rfl⟩
      have hq01 : st1.place? q = some pq0 := hq0
      obtain ⟨pq', hq', hq'ant, _, _, _, _, hq'sub⟩ := hplace2 q pq0 hq01
      rw [hq] at hq'
      injection hq' with he
      subst he
      obtain ⟨ho1, ho2⟩ := hOther q pq0 hq0 hne
      refine ⟨by rw [hq'ant]; exact ho1, fun hmem => ho2 (hq'sub.mem hmem)⟩
    obtain ⟨st', hrem, hc1, hc2, hc3⟩ :=
      removeInsect_removes hp2 hiid2
        (fun _ => by rw [hp2ant]; exact hslot)
        (fun hf => by rw [show ins1.kind = ins.kind from rfl, hAnt] at hf; exact Bool.noConfusion hf)
        (by rw [show ins1.kind = ins.kind from rfl, hkf]; intro hx; exact absurd hx.1 (by decide))
        (fun hcc => by
          rw [show ins1.kind = ins.kind from rfl, hkf] at hcc
          exact absurd hcc (by decide))
        (spec.1.sublist hp2sub)
        (fun _ hmem => hslotbee hAnt (hp2sub.mem hmem))
        (fun hf => by rw [show ins1.kind = ins.kind from rfl, hAnt] at hf; exact Bool.noConfusion hf)
        (fun q pq hq hne => hOther2 q pq hq hne)
    refine ⟨st', ?_, hc1, by rw [hc2], hc3⟩
    have hkill1 : ins1.armor ≤ 0 := hkill
    have hpl1 : ins1.place = some pid := hpl
    simp only [reduceArmor, Option.bind_eq_bind, hins, Option.some_bind, if_pos hkf]
    simp only [fireReduceArmor, Option.bind_eq_bind, hins, Option.some_bind]
    rw [← hins1, ← hst1]
    rw [hpl1]
    simp only [Option.some_bind, hp1]
    rw [if_pos hkill1]
    simp only [Option.bind_eq_bind, Option.some_bind, hfold, hiid2, hpl1, hpl]
    exact hrem
  · -- Every other insect: the base reduce_armor path.
    set ins1 : Insect := { ins with armor := ins.armor - amount } with hins1
    set st1 : GameState := st.setInsect iid ins1 with hst1
    have hins1look : st1.insect? iid = some ins1 := insect?_setInsect_self _ _ _ hiidLt
    have hp1 : st1.place? pid = some p := hp
    have hcont1 : ins1.kind.container = true →
        ∃ c cIns, ins1.ant = some c ∧ c ≠ iid ∧ st1.insect? c = some cIns := by
      intro hcc
      obtain ⟨c, cIns, hc, hcne, hcIns⟩ := hcont hcc
      exact ⟨c, cIns, hc, hcne,
        by rw [hst1, insect?_setInsect_ne _ _ (fun he => hcne he.symm)]; exact hcIns⟩
    obtain ⟨st', hrem, hc1, hc2, hc3⟩ :=
      removeInsect_removes hp1 hins1look
        (fun hAnt => hvisAntP hAnt) (fun hAnt => hvisBeeP hAnt) hnotq hcont1
        spec.1 (fun hAnt => hslotbee hAnt) (fun hAnt => hbeeslot hAnt)
        (fun q pq hq hne => hOther q pq hq hne)
    refine ⟨st', ?_, hc1, by rw [hc2], hc3⟩
    have hkill1 : ins1.armor ≤ 0 := hkill
    have hpl1 : ins1.place = some pid := hpl
    simp only [reduceArmor, Option.bind_eq_bind, hins, Option.some_bind, if_neg hkf]
    simp only [insectReduceArmor, Option.bind_eq_bind, hins, Option.some_bind]
    rw [← hins1, ← hst1]
    rw [if_pos hkill1]
    rw [hpl1]
    simp only [Option.some_bind]
    exact hrem

/-- C1 (amended): for every unit that is consistently and visibly placed
— an attacker listed at its location, or a defender occupying its
location's slot (hence not an ant sheltered inside a shelter), a shelter
only while holding a distinct sheltered unit — and that is not the true
queen, reducing armor to zero or below removes the unit from its
location exactly once and nulls its location reference: afterwards no
location's occupant slot or attacker list contains it.  For the true
queen the removal is a no-op: she keeps her location reference and stays
in her location's slot. -/
theorem c1_armor_depletion_removes :
    (∀ (st : GameState) (iid pid : Nat) (ins : Insect) (amount : Int),
      Inv st = true → st.insect? iid = some ins → ins.place = some pid →
      (ins.kind.isAnt = true → (st.place? pid).bind Place.ant = some iid) →
      (ins.kind.isAnt = false → iid ∈ st.beesAt pid) →
      ¬(ins.kind = .queen ∧ ins.trueQueen = true) →
      (ins.kind.container = true →
        ∃ c cIns, ins.ant = some c ∧ c ≠ iid ∧ st.insect? c = some cIns) →
      ins.armor - amount ≤ 0 →
      ∃ st', reduceArmor st iid amount = some st' ∧
        (st'.insect? iid).map Insect.place = some none ∧
        (st'.insect? iid).map Insect.armor = some (ins.armor - amount) ∧
        ∀ q pq', st'.place? q = some pq' → pq'.ant ≠ some iid ∧ iid ∉ pq'.bees) ∧
    (∀ (st : GameState) (iid pid : Nat) (ins : Insect) (amount : Int) (p : Place),
      st.insect? iid = some ins → ins.place = some pid →
      ins.kind = .queen → ins.trueQueen = true →
      st.place? pid = some p → p.ant = some iid → ins.armor - amount ≤ 0 →
      ∃ st', reduceArmor st iid amount = some st' ∧
        (st'.insect? iid).map Insect.place = some (some pid) ∧
        (st'.place? pid).map Place.ant = some (some iid)) := by
  constructor
  · intro st iid pid ins amount hInv hins hpl hvisAnt hvisBee hnotq hcont hkill
    exact reduceArmor_removes amount hInv hins hpl hvisAnt hvisBee hnotq hcont hkill
  · intro st iid pid ins amount p hins hpl hk htq hp hslot hkill
    have hiidLt : iid < st.insects.length := lt_of_insect?_eq_some hins
    have hrem : reduceArmor st iid amount =
        some (st.setInsect iid { ins with armor := ins.armor - amount }) := by
      simp only [reduceArmor, Option.bind_eq_bind, hins, Option.some_bind,
        if_neg (by rw [hk]; decide : ¬ins.kind = .fire)]
      simp only [insectReduceArmor, Option.bind_eq_bind, hins, Option.some_bind]
      rw [if_pos (by simpa using hkill)]
      have hpl1 : ({ ins with armor := ins.armor - amount } : Insect).place = some pid := hpl
      rw [hpl1]
      simp only [Option.some_bind, removeInsect, Option.bind_eq_bind, place?_setInsect, hp,
        Option.some_bind, insect?_setInsect_self _ _ _ hiidLt]
      rw [if_pos (by rw [hk]; rfl), if_pos hslot,
        if_neg (by show ¬(ins.kind.container = true); rw [hk]; decide),
        if_pos (by rw [hk, htq]; rfl)]
    refine ⟨_, hrem, ?_, ?_⟩
    · rw [insect?_setInsect_self _ _ _ hiidLt]
      simpa using hpl
    · rw [place?_setInsect, hp]
      simpa using hslot

/-- Witness for C1: a concrete thrower killed at its place is removed
everywhere; the concrete true queen survives her own armor
depletion in place. -/
theorem c1_armor_depletion_removes_witness :
    (∃ st', reduceArmor c5St 0 1 = some st' ∧
      (st'.insect? 0).map Insect.place = some none ∧
      (st'.insect? 0).map Insect.armor = some (1 - 1) ∧
      ∀ q pq', st'.place? q = some pq' → pq'.ant ≠ some 0 ∧ 0 ∉ pq'.bees) ∧
    (∃ st', reduceArmor c2St 0 5 = some st' ∧
      (st'.insect? 0).map Insect.place = some (some 0) ∧
      (st'.place? 0).map Place.ant = some (some 0)) :=
  ⟨c1_armor_depletion_removes.1 c5St 0 0 c5Thrower 1 (by decide) (by decide) (by decide)
      (fun _ => by decide) (fun hf => absurd hf (by decide)) (by decide)
      (fun hcc => absurd hcc (by decide)) (by decide),
   c1_armor_depletion_removes.2 c2St 0 0
      { kind := .queen, armor := 1, place := some 0, damage := 1, ant := none,
        trueQueen := true, digesting := 0, doubleDmgAnts := [] } 5
      { exit := none, entrance := some 1, bees := [], ant := some 0,
        isWater := false, isHive := false }
      (by decide) (by decide) rfl rfl (by decide) (by decide) (by decide)⟩

/-- The record of a freshly added insect: same kind and armor, place set
to the hosting location. -/
theorem addInsect_lookup {st st' : GameState} {pid iid : Nat} {ins : Insect}
    (hins : st.insect? iid = some ins) (h : addInsect st pid iid = some st') :
    ∃ ins', st'.insect? iid = some ins' ∧ ins'.kind = ins.kind ∧
      ins'.armor = ins.armor ∧ ins'.place = some pid := by
  have hiidLt : iid < st.insects.length := lt_of_insect?_eq_some hins
  simp only [addInsect, Option.bind_eq_bind, Option.bind_eq_some] at h
  obtain ⟨p, hp, ins0, hins0, h⟩ := h
  rw [hins] at hins0
  injection hins0 with he
  subst he
  split at h
  · split at h
    · simp only [Option.bind_eq_some] at h
      obtain ⟨aIns, haIns, h⟩ := h
      split at h
      · injection h with h1
        subst h1
        exact ⟨_, insect?_setInsect_self _ _ _ (by simpa [GameState.setInsect] using hiidLt),
          rfl, rfl, rfl⟩
      · split at h
        · injection h with h1
          subst h1
          rename_i x a heq hnc hcc
          exact ⟨{ ins with ant := some a, place := some pid },
            by rw [insect?_setPlace]; exact insect?_setInsect_self _ _ _ hiidLt,
            rfl, rfl, rfl⟩
        · exact Option.noConfusion h
    · injection h with h1
      subst h1
      exact ⟨_, insect?_setInsect_self _ _ _ (by simpa [GameState.setInsect, GameState.setPlace] using hiidLt),
        rfl, rfl, rfl⟩
  · injection h with h1
    subst h1
    exact ⟨_, insect?_setInsect_self _ _ _ (by simpa [GameState.setInsect, GameState.setPlace] using hiidLt),
      rfl, rfl, rfl⟩

/-- C2 (amended): the walk's seen list makes re-propagation inert as
long as the defender arrangement does not change — running
ants_in_same_tunnel again on its own output state and seen list doubles
nobody and changes nothing (so with unchanged placements a defender's
damage is doubled at most once across any number of turns; only a
defender newly sheltered behind a container absent from the seen list,
as in the recorded counterexample, can be doubled again); and a
duplicate (non-true) queen's action is exactly its own full
armor-reduction and never changes any insect's damage. -/
theorem c2_aura_propagation_amended (choose : List Nat → Option Nat) :
    (∀ (st : GameState) (q : Nat) (seen : List Nat) (out : GameState × List Nat),
      antsInSameTunnel st q seen = some out →
      antsInSameTunnel out.1 q out.2 = some out) ∧
    (∀ (st : GameState) (q : Nat) (ins : Insect),
      st.insect? q = some ins → ins.kind = .queen → ins.trueQueen = false →
      queenAction choose st q = reduceArmor st q ins.armor ∧
      ∀ st', queenAction choose st q = some st' →
        ∀ j, (st'.insect? j).map Insect.damage = (st.insect? j).map Insect.damage) := by
  refine ⟨fun st q seen out h => antsInSameTunnel_fix h, fun st q ins hins hk htq => ?_⟩
  have hqa : queenAction choose st q = reduceArmor st q ins.armor := by
    simp [queenAction, hins, htq]
  refine ⟨hqa, fun st' h j => ?_⟩
  rw [hqa] at h
  simp only [reduceArmor, Option.bind_eq_bind, Option.bind_eq_some] at h
  obtain ⟨ins2, hins2, h⟩ := h
  rw [hins] at hins2
  injection hins2 with he
  subst he
  rw [hk, if_neg (by decide)] at h
  exact insectReduceArmor_damage h j

/-- Witness for C2: re-running the walk on the concrete post-walk state
changes nothing, and the concrete impostor queen's action is its own
full armor reduction. -/
theorem c2_aura_propagation_amended_witness :
    antsInSameTunnel c2AfterSt 0 [1] = some (c2AfterSt, [1]) ∧
      queenAction List.head? c2ImpSt 0 = reduceArmor c2ImpSt 0 1 :=
  ⟨(c2_aura_propagation_amended List.head?).1 c2St 0 [] (c2AfterSt, [1]) (by decide),
   ((c2_aura_propagation_amended List.head?).2 c2ImpSt 0
      { kind := .queen, armor := 1, place := some 0, damage := 1, ant := none,
        trueQueen := false, digesting := 0, doubleDmgAnts := [] }
      (by decide) rfl rfl).1⟩

/-- C10: after the true queen's first action colony.queen becomes a
QueenPlace wrapping the previous reference together with the queen's own
location; the bees of such a reference are those of the wrapped
reference plus those at the queen's location; and whenever that combined
list is nonempty the simulation loop stops at its next check and returns
LOST with the state unchanged. -/
theorem c10_queenplace_loss (choose : List Nat → Option Nat) :
    (∀ st q ins pid st', st.insect? q = some ins → ins.trueQueen = true →
      ins.place = some pid → queenAction choose st q = some st' →
      st'.queenRef = .qplace st.queenRef (some pid)) ∧
    (∀ st qr pid l, queenRefBees st qr = some l →
      queenRefBees st (.qplace qr (some pid)) =
        (st.place? pid).map fun p => l ++ p.bees) ∧
    (∀ plan strat fuel st qb, queenRefBees st st.queenRef = some qb → qb ≠ [] →
      runSim choose plan strat (fuel + 1) st = some (.lost, st)) := by
  refine ⟨fun st q ins pid st' hins htq hpl h => ?_, fun st qr pid l h => ?_,
    fun plan strat fuel st qb hqb hne => ?_⟩
  · simp only [queenAction, Option.bind_eq_bind, Option.bind_eq_some] at h
    obtain ⟨ins', hins', h⟩ := h
    rw [hins] at hins'
    injection hins' with he
    subst he
    rw [htq] at h
    simp only [Bool.not_true, Bool.false_eq_true, if_false, Option.bind_eq_bind,
      Option.bind_eq_some] at h
    obtain ⟨st2, hta, ins2, hins2, st3, hast, ins3, hins3, h⟩ := h
    injection h with h1
    subst h1
    show st3.1.queenRef = _
    have h32 : st3.1.queenRef = st2.queenRef := (antsInSameTunnel_frame hast).2.2.2.1
    have h21 : st2.queenRef =
        ({ st with queenRef := .qplace st.queenRef ins.place } : GameState).queenRef :=
      (throwerAction_frame hta).2.2.2.1
    rw [h32, h21, hpl]
  · cases hp : st.place? pid with
    | none => simp [queenRefBees, h, hp]
    | some p => simp [queenRefBees, h, hp]
  · rw [runSim]
    simp only [Option.bind_eq_bind, Option.bind_eq_some, hqb, Option.some_bind]
    have hie : qb.isEmpty = false := by
      cases qb with
      | nil => exact absurd rfl hne
      | cons x t => rfl
    simp [hie]

/-- Witness for C10: the queen's own place holds a bee while the
original protected place is empty, and the loop immediately reports
LOST; the first queen action of the c2 state wraps colony.queen. -/
theorem c10_queenplace_loss_witness :
    runSim List.head? (fun _ => []) some 1 c10St = some (.lost, c10St) ∧
      (∀ st', queenAction List.head? c2St 0 = some st' →
        st'.queenRef = .qplace (.place 0) (some 0)) :=
  ⟨(c10_queenplace_loss List.head?).2.2 (fun _ => []) some 0 c10St [3] (by decide)
      (by decide),
   fun st' h => (c10_queenplace_loss List.head?).1 c2St 0
      { kind := .queen, armor := 1, place := some 0, damage := 1, ant := none,
        trueQueen := true, digesting := 0, doubleDmgAnts := [] } 0 st'
      (by decide) rfl rfl h⟩

/-- Witness for C5 at the concrete one-place state. -/
theorem c5_containment_roundtrip_witness :
    ∃ st1, addInsect c5St 0 1 = some st1 ∧
      (st1.place? 0).map Place.ant = some (some 1) ∧
      (st1.insect? 1).bind Insect.ant = some 0 ∧
      st1.insect? 0 = some c5Thrower ∧
      ∃ st2, removeInsect st1 0 1 = some st2 ∧
        (st2.place? 0).map Place.ant = some (some 0) ∧
        (st2.insect? 0).bind Insect.place = some 0 ∧
        (st2.insect? 1).bind Insect.place = none ∧
        (st2.insect? 1).isSome = true :=
  c5_containment_roundtrip c5St 0 0 1 c5Place c5Thrower c5Guard (by decide) (by decide)
    (by decide) (by decide) (by decide) (by decide) (by decide) (by decide) (by decide)

/-- Converse of placeOk_spec: a place whose bee list and slot are backed
by consistent arena entries satisfies the per-place invariant. -/
theorem placeOk_intro {st : GameState} {pid : Nat} {p : Place}
    (hp : st.place? pid = some p)
    (hnd : p.bees.Nodup)
    (hbees : ∀ b ∈ p.bees, ∃ ins, st.insect? b = some ins ∧ ins.kind.isAnt = false ∧
      ins.place = some pid ∧ 0 < ins.armor)
    (hant : ∀ a, p.ant = some a → ∃ ins, st.insect? a = some ins ∧ ins.kind.isAnt = true ∧
      ins.place = some pid) :
    placeOk st pid = true := by
  unfold placeOk
  rw [hp]
  simp only [Bool.and_eq_true, decide_eq_true_eq, List.all_eq_true]
  refine ⟨⟨hnd, fun b hb => ?_⟩, ?_⟩
  · obtain ⟨ins, hins, h1, h2, h3⟩ := hbees b hb
    unfold insectOkBee
    rw [hins]
    simp [h1, h2, h3]
  · rcases ha : p.ant with _ | a
    · rfl
    · obtain ⟨ins, hins, h1, h2⟩ := hant a ha
      dsimp only
      rw [hins]
      simp [h1, h2]

/-- Under the invariant an unplaced insect is referenced by no place:
its id sits in no slot and in no bee list. -/
theorem unplaced_unreferenced {st : GameState} {iid : Nat} {ins : Insect}
    (hInv : Inv st = true) (hins : st.insect? iid = some ins)
    (hplnone : ins.place = none) :
    ∀ q pq, st.place? q = some pq → pq.ant ≠ some iid ∧ iid ∉ pq.bees := by
  intro q pq hq
  have hok := placeOk_spec (inv_placeOk hInv q) hq
  constructor
  · intro hant
    obtain ⟨ins', hins', _, hpl'⟩ := hok.2.2 iid hant
    rw [hins] at hins'
    injection hins' with he
    subst he
    rw [hplnone] at hpl'
    exact Option.noConfusion hpl'
  · intro hmem
    obtain ⟨ins', hins', _, hpl', _⟩ := hok.2.1 iid hmem
    rw [hins] at hins'
    injection hins' with he
    subst he
    rw [hplnone] at hpl'
    exact Option.noConfusion hpl'

/-- A place other than the modified one keeps its per-place invariant
when the insect arena changes only at an id the place never
references. -/
theorem placeOk_other {st st' : GameState} {iid q : Nat}
    (hInv : Inv st = true)
    (hq : st'.place? q = st.place? q)
    (hset : ∀ j, j ≠ iid → st'.insect? j = st.insect? j)
    (href : ∀ pq, st.place? q = some pq → pq.ant ≠ some iid ∧ iid ∉ pq.bees) :
    placeOk st' q = true := by
  rcases hpq : st.place? q with _ | pq
  · unfold placeOk
    rw [hq, hpq]
  · have hspecq := placeOk_spec (inv_placeOk hInv q) hpq
    refine placeOk_intro (by rw [hq]; exact hpq) hspecq.1 ?_ ?_
    · intro b hb
      obtain ⟨insB, hinsB, h1, h2, h3⟩ := hspecq.2.1 b hb
      have hbne : b ≠ iid := fun he => (href pq hpq).2 (he ▸ hb)
      exact ⟨insB, by rw [hset b hbne]; exact hinsB, h1, h2, h3⟩
    · intro a ha
      obtain ⟨insA, hinsA, h1, h2⟩ := hspecq.2.2 a ha
      have hane : a ≠ iid := fun he => (href pq hpq).1 (he ▸ ha)
      exact ⟨insA, by rw [hset a hane]; exact hinsA, h1, h2⟩

/-- Adding a fresh, positive-armor insect to a place (an ant only into
an empty slot) succeeds, preserves the placement invariant, and
registers the insect at the place. -/
theorem addInsect_fresh {st : GameState} {pid iid : Nat} {ins : Insect} {p : Place}
    (hInv : Inv st = true)
    (hins : st.insect? iid = some ins)
    (hp : st.place? pid = some p)
    (hplnone : ins.place = none)
    (hpos : ins.kind.isAnt = false → 0 < ins.armor)
    (hslot : ins.kind.isAnt = true → p.ant = none) :
    ∃ st', addInsect st pid iid = some st' ∧
      Inv st' = true ∧
      st'.insect? iid = some { ins with place := some pid } ∧
      (ins.kind.isAnt = true → (st'.place? pid).bind Place.ant = some iid) ∧
      (ins.kind.isAnt = false → iid ∈ st'.beesAt pid) := by
  have hiidLt : iid < st.insects.length := lt_of_insect?_eq_some hins
  have hpidLt : pid < st.places.length := lt_of_place?_eq_some hp
  have href := unplaced_unreferenced hInv hins hplnone
  have hspec := placeOk_spec (inv_placeOk hInv pid) hp
  by_cases hAnt : ins.kind.isAnt = true
  · have hpant : p.ant = none := hslot hAnt
    refine ⟨(st.setPlace pid { p with ant := some iid }).setInsect iid
      { ins with place := some pid }, ?_, ?_, ?_, ?_, ?_⟩
    · simp only [addInsect, Option.bind_eq_bind, hp, Option.some_bind, hins, hAnt,
        if_true, hpant]
    · unfold Inv
      refine List.all_eq_true.mpr fun q _ => ?_
      by_cases hq' : q = pid
      · subst hq'
        have hp' : ((st.setPlace q { p with ant := some iid }).setInsect iid
            { ins with place := some q }).place? q = some { p with ant := some iid } := by
          rw [place?_setInsect, place?_setPlace_self _ _ _ hpidLt]
        refine placeOk_intro hp' hspec.1 ?_ ?_
        · intro b hb
          obtain ⟨insB, hinsB, h1, h2, h3⟩ := hspec.2.1 b hb
          have hbne : iid ≠ b := fun he => (href q p hp).2 (he ▸ hb)
          exact ⟨insB, by rw [insect?_setInsect_ne _ _ hbne, insect?_setPlace]; exact hinsB,
            h1, h2, h3⟩
        · intro a ha
          have ha' : some iid = some a := ha
          injection ha' with he
          subst he
          refine ⟨{ ins with place := some q }, ?_, hAnt, rfl⟩
          exact insect?_setInsect_self _ _ _ (by simpa [GameState.setPlace] using hiidLt)
      · refine placeOk_other hInv ?_ ?_ (fun pq hpq => href q pq hpq)
        · rw [place?_setInsect, place?_setPlace_ne _ _ (fun h => hq' h.symm)]
        · intro j hj
          rw [insect?_setInsect_ne _ _ (Ne.symm hj), insect?_setPlace]
    · exact insect?_setInsect_self _ _ _ (by simpa [GameState.setPlace] using hiidLt)
    · intro _
      rw [place?_setInsect, place?_setPlace_self _ _ _ hpidLt]
      rfl
    · intro h
      rw [hAnt] at h
      exact Bool.noConfusion h
  · have hAntF : ins.kind.isAnt = false := by simpa using hAnt
    have hnotmem : iid ∉ p.bees := (href pid p hp).2
    refine ⟨(st.setPlace pid { p with bees := p.bees ++ [iid] }).setInsect iid
      { ins with place := some pid }, ?_, ?_, ?_, ?_, ?_⟩
    · simp only [addInsect, Option.bind_eq_bind, hp, Option.some_bind, hins, hAntF,
        Bool.false_eq_true, if_false]
    · unfold Inv
      refine List.all_eq_true.mpr fun q _ => ?_
      by_cases hq' : q = pid
      · subst hq'
        have hp' : ((st.setPlace q { p with bees := p.bees ++ [iid] }).setInsect iid
            { ins with place := some q }).place? q =
            some { p with bees := p.bees ++ [iid] } := by
          rw [place?_setInsect, place?_setPlace_self _ _ _ hpidLt]
        refine placeOk_intro hp' ?_ ?_ ?_
        · refine hspec.1.append (List.nodup_singleton iid) ?_
          intro a ha hb
          rw [List.mem_singleton] at hb
          subst hb
          exact hnotmem ha
        · intro b hb
          rcases List.mem_append.mp hb with hb' | hb'
          · obtain ⟨insB, hinsB, h1, h2, h3⟩ := hspec.2.1 b hb'
            have hbne : iid ≠ b := fun he => hnotmem (he ▸ hb')
            exact ⟨insB, by rw [insect?_setInsect_ne _ _ hbne, insect?_setPlace]; exact hinsB,
              h1, h2, h3⟩
          · rw [List.mem_singleton] at hb'
            subst hb'
            refine ⟨{ ins with place := some q }, ?_, hAntF, rfl, hpos hAntF⟩
            exact insect?_setInsect_self _ _ _ (by simpa [GameState.setPlace] using hiidLt)
        · intro a ha
          obtain ⟨insA, hinsA, h1, h2⟩ := hspec.2.2 a ha
          have hane : iid ≠ a := fun he => (href q p hp).1 (he ▸ ha)
          exact ⟨insA, by rw [insect?_setInsect_ne _ _ hane, insect?_setPlace]; exact hinsA,
            h1, h2⟩
      · refine placeOk_other hInv ?_ ?_ (fun pq hpq => href q pq hpq)
        · rw [place?_setInsect, place?_setPlace_ne _ _ (fun h => hq' h.symm)]
        · intro j hj
          rw [insect?_setInsect_ne _ _ (Ne.symm hj), insect?_setPlace]
    · exact insect?_setInsect_self _ _ _ (by simpa [GameState.setPlace] using hiidLt)
    · intro h
      rw [hAntF] at h
      exact Bool.noConfusion h
    · intro _
      unfold GameState.beesAt
      rw [place?_setInsect, place?_setPlace_self _ _ _ hpidLt]
      simp

/-- Every kind that is not watersafe is an ant kind (the Bee is
watersafe). -/
theorem isAnt_of_not_watersafe (k : InsectKind) (h : k.watersafe = false) :
    k.isAnt = true := by
  cases k <;> revert h <;> decide

/-- Only the BodyguardAnt kind has the container attribute. -/
theorem bodyguard_of_container (k : InsectKind) (h : k.container = true) :
    k = .bodyguard := by
  cases k <;> revert h <;> decide

/-- Removing a container whose slot is empty fails: the source assigns
the contained ant (None) to the place's slot and then dereferences it. -/
theorem removeInsect_empty_container {st : GameState} {pid iid : Nat} {ins : Insect}
    {p : Place}
    (hp : st.place? pid = some p) (hins : st.insect? iid = some ins)
    (hAnt : ins.kind.isAnt = true) (hslot : p.ant = some iid)
    (hcont : ins.kind.container = true) (hempty : ins.ant = none) :
    removeInsect st pid iid = none := by
  simp only [removeInsect, Option.bind_eq_bind, hp, Option.some_bind, hins, hAnt,
    hslot, hcont, hempty, eq_self_iff_true, if_true, Option.none_bind]

/-- C8 counterexample: the BodyguardAnt is not watersafe, the ordinary
add-occupant operation accepts it into the water place, but the hazard
add crashes instead of destroying it — the armor-reduction path
dereferences the empty shelter's missing contained unit, so no resulting
state exists at all. -/
theorem c8_counterexample :
    (c8St.insect? 3).map (fun i => i.kind.watersafe) = some false ∧
    (addInsect c8St 0 3).isSome = true ∧
    waterAddInsect c8St 0 3 = none :=
  ⟨by decide, by decide, by decide⟩

/-- C8 (amended): Water.add_insect first performs the ordinary
Place.add_insect; a watersafe insect is then left alone (its armor
unchanged by the placement).  A non-watersafe insect immediately has its
armor reduced by its own full armor through the normal reduce_armor
path.  For every non-watersafe, non-container unit this placement
destroys it: armor exactly 0, place reference nulled, and no slot or bee
list anywhere retains it.  For a non-watersafe container whose slot is
empty, however, the removal step dereferences the missing contained unit
and the whole operation fails instead of destroying the unit.  The
on-death side effects of the armor-reduction path still fire: placing a
FireAnt into a water place hosting a bee detonates it, and the bee loses
the fire damage (5 armor becomes 2). -/
theorem c8_water_destruction :
    (∀ st pid iid ins, st.insect? iid = some ins → ins.kind.watersafe = true →
      waterAddInsect st pid iid = addInsect st pid iid ∧
      ∀ st', addInsect st pid iid = some st' →
        (st'.insect? iid).map Insect.armor = some ins.armor) ∧
    (∀ st pid iid ins p, Inv st = true → st.insect? iid = some ins →
      st.place? pid = some p → ins.place = none →
      ins.kind.watersafe = false → ins.kind.container = false →
      p.ant = none →
      ∃ st', waterAddInsect st pid iid = some st' ∧
        (st'.insect? iid).map Insect.armor = some 0 ∧
        (st'.insect? iid).map Insect.place = some none ∧
        ∀ q pq, st'.place? q = some pq → pq.ant ≠ some iid ∧ iid ∉ pq.bees) ∧
    (∀ st pid iid ins p, Inv st = true → st.insect? iid = some ins →
      st.place? pid = some p → ins.place = none →
      ins.kind.watersafe = false → ins.kind.container = true → ins.ant = none →
      p.ant = none →
      waterAddInsect st pid iid = none) ∧
    ((waterAddInsect c8St 0 1).bind (fun s => s.insect? 0)).map Insect.armor = some 2 := by
  refine ⟨?_, ?_, ?_, by decide⟩
  · intro st pid iid ins hins hws
    constructor
    · rcases hadd : addInsect st pid iid with _ | st1
      · simp [waterAddInsect, hadd]
      · obtain ⟨ins1, hlook, hkind, harm, hpl⟩ := addInsect_lookup hins hadd
        have hws1 : ins1.kind.watersafe = true := by rw [hkind]; exact hws
        simp only [waterAddInsect, Option.bind_eq_bind, hadd, Option.some_bind, hlook,
          hws1, if_true]
    · intro st' hadd
      obtain ⟨ins1, hlook, hkind, harm, hpl⟩ := addInsect_lookup hins hadd
      rw [hlook]
      simp [harm]
  · intro st pid iid ins p hInv hins hp hplnone hws hcont hslot
    have hAnt : ins.kind.isAnt = true := isAnt_of_not_watersafe _ hws
    have hnotq : ¬(ins.kind = InsectKind.queen ∧ ins.trueQueen = true) :=
      fun hqp => absurd hws (by rw [hqp.1]; decide)
    obtain ⟨stA, hadd, hInvA, hlook, hvisA, hvisB⟩ := addInsect_fresh hInv hins hp hplnone
      (fun hf => absurd hAnt (by rw [hf]; decide)) (fun _ => hslot)
    have hws1 : ({ ins with place := some pid } : Insect).kind.watersafe = false := hws
    obtain ⟨st', hredEq, hplres, harmres, hnores⟩ :=
      reduceArmor_removes (({ ins with place := some pid } : Insect).armor)
        hInvA hlook rfl (fun hA => hvisA hA) (fun hA => hvisB hA) hnotq
        (fun hc => absurd hc (by show ¬(ins.kind.container = true); rw [hcont]; decide))
        (by show ins.armor - ins.armor ≤ 0; omega)
    refine ⟨st', ?_, ?_, hplres, hnores⟩
    · simp only [waterAddInsect, Option.bind_eq_bind, hadd, Option.some_bind, hlook,
        hws1, Bool.false_eq_true, if_false]
      exact hredEq
    · rw [harmres]
      rw [show ({ ins with place := some pid } : Insect).armor -
        ({ ins with place := some pid } : Insect).armor = 0 from Int.sub_self _]
  · intro st pid iid ins p hInv hins hp hplnone hws hcontT hempty hslot
    have hAnt : ins.kind.isAnt = true := isAnt_of_not_watersafe _ hws
    have hkb : ins.kind = .bodyguard := bodyguard_of_container _ hcontT
    obtain ⟨stA, hadd, hInvA, hlook, hvisA, hvisB⟩ := addInsect_fresh hInv hins hp hplnone
      (fun hf => absurd hAnt (by rw [hf]; decide)) (fun _ => hslot)
    have hvis := hvisA hAnt
    rcases hpA : stA.place? pid with _ | pA
    · rw [hpA] at hvis
      exact Option.noConfusion hvis
    rw [hpA] at hvis
    have hpAant : pA.ant = some iid := hvis
    have hiidLtA : iid < stA.insects.length := lt_of_insect?_eq_some hlook
    have hws1 : ({ ins with place := some pid } : Insect).kind.watersafe = false := hws
    simp only [waterAddInsect, Option.bind_eq_bind, hadd, Option.some_bind, hlook,
      hws1, Bool.false_eq_true, if_false]
    simp only [reduceArmor, Option.bind_eq_bind, hlook, Option.some_bind]
    rw [if_neg (show ¬(({ ins with place := some pid } : Insect).kind = .fire) by
      show ¬(ins.kind = .fire); rw [hkb]; decide)]
    simp only [insectReduceArmor, Option.bind_eq_bind, hlook, Option.some_bind]
    rw [if_pos (show ({ ins with place := some pid } : Insect).armor -
      ({ ins with place := some pid } : Insect).armor ≤ 0 by omega)]
    exact removeInsect_empty_container
      (by rw [place?_setInsect]; exact hpA)
      (insect?_setInsect_self _ _ _ hiidLtA)
      hAnt hpAant hcontT hempty

/-- Witness for C8: the concrete scuba thrower enters the water through
the plain add path; the concrete fire ant is destroyed on placement and
scrubbed from every slot and bee list; the concrete empty bodyguard
makes the hazard add fail. -/
theorem c8_water_destruction_witness :
    waterAddInsect c8St 0 2 = addInsect c8St 0 2 ∧
    (∃ st', waterAddInsect c8St 0 1 = some st' ∧
      (st'.insect? 1).map Insect.armor = some 0 ∧
      (st'.insect? 1).map Insect.place = some none ∧
      ∀ q pq, st'.place? q = some pq → pq.ant ≠ some 1 ∧ 1 ∉ pq.bees) ∧
    waterAddInsect c8St 0 3 = none := by
  refine ⟨(c8_water_destruction.1 c8St 0 2 _ rfl rfl).1, ?_, ?_⟩
  · exact c8_water_destruction.2.1 c8St 0 1 _ _ (by decide) rfl rfl rfl rfl rfl rfl
  · exact c8_water_destruction.2.2.1 c8St 0 3 _ _ (by decide) rfl rfl rfl rfl rfl rfl rfl

end Ants
